import Mathlib

/-!
# Verification development for `7_27_17.cpp`

A shallow embedding of the Phidget spatial-sensor session (`phidget::Spatial`), its
error translator, the event callbacks, and the generic `Range` printer.

The vendor SDK (`phidget22.h`) is reached only through its C functions.  It is modelled
by a record `Sdk` that fixes, for every SDK function the program calls, the return code
(and the value stored through an out-pointer, where there is one).  Every SDK function
call the program makes is appended to `World.trace`, the two output streams are the
strings `World.cout` and `World.cerr`, and a C++ exception is the `error` case of
`Except String`, carrying the text of `what()`.
-/

namespace Scratchpad

/-- `PhidgetReturnCode`: a C enumeration, streamed as a decimal integer. -/
abbrev ReturnCode := Int

/-- The success code `EPHIDGET_OK` of the vendor header (its value there is 0). -/
def EPHIDGET_OK : ReturnCode := 0

/-- `PhidgetHandle` / `PhidgetSpatialHandle`: an opaque pointer value. -/
abbrev Handle := Nat

/-- One SDK function call, as recorded in the trace, with the handle (or code) passed. -/
inductive Call where
  | PhidgetSpatial_create
  | PhidgetSpatial_delete (h : Handle)
  | Phidget_close (h : Handle)
  | Phidget_openWaitForAttachment (h : Handle) (timeout_ms : Nat)
  | Phidget_setOnAttachHandler (h : Handle)
  | Phidget_setOnDetachHandler (h : Handle)
  | Phidget_setOnErrorHandler (h : Handle)
  | PhidgetSpatial_setOnSpatialDataHandler (h : Handle)
  | Phidget_getDeviceSerialNumber (h : Handle)
  | Phidget_getChannel (h : Handle)
  | Phidget_getHubPort (h : Handle)
  | Phidget_getErrorDescription (code : ReturnCode)
  deriving DecidableEq, Repr

/-- The answers of the SDK: for each function its return code and, for functions with an
out-pointer, the value stored through it (meaningful to the caller on success only). -/
structure Sdk where
  PhidgetSpatial_create : ReturnCode × Handle
  PhidgetSpatial_delete : Handle → ReturnCode × Handle
  Phidget_close : Handle → ReturnCode
  Phidget_openWaitForAttachment : Handle → Nat → ReturnCode
  Phidget_setOnAttachHandler : Handle → ReturnCode
  Phidget_setOnDetachHandler : Handle → ReturnCode
  Phidget_setOnErrorHandler : Handle → ReturnCode
  PhidgetSpatial_setOnSpatialDataHandler : Handle → ReturnCode
  Phidget_getDeviceSerialNumber : Handle → ReturnCode × Int
  Phidget_getChannel : Handle → ReturnCode × Int
  Phidget_getHubPort : Handle → ReturnCode × Int
  Phidget_getErrorDescription : ReturnCode → ReturnCode × String

/-- The observable state: the trace of SDK calls, the text written to `std::cout` and to
`std::cerr`, and the floating-point precision of `std::cout`. -/
structure World where
  trace : List Call
  cout : String
  cerr : String
  precision : Nat
  deriving DecidableEq, Repr

/-- The state at program start: nothing called, nothing written, default precision 6. -/
def World.init : World := ⟨[], "", "", 6⟩

/-- Record one SDK call at the end of the trace. -/
def World.call (w : World) (c : Call) : World := { w with trace := w.trace ++ [c] }

/-- Append text to `std::cout`. -/
def World.out (w : World) (s : String) : World := { w with cout := w.cout ++ s }

/-- Append text to `std::cerr`. -/
def World.err (w : World) (s : String) : World := { w with cerr := w.cerr ++ s }

/-! ## Error translator -/

/-- `phidget::get_error_description`: looks the description up in the SDK; a non-success
return of the lookup is thrown as a `runtime_error` naming the lookup's own code. -/
def get_error_description (sdk : Sdk) (code : ReturnCode) (w : World) :
    Except String String × World :=
  let return_code := (sdk.Phidget_getErrorDescription code).1
  let w1 := w.call (Call.Phidget_getErrorDescription code)
  if return_code ≠ EPHIDGET_OK then
    (Except.error ("phidget::get_error_description: error code " ++ toString return_code), w1)
  else
    (Except.ok (sdk.Phidget_getErrorDescription code).2, w1)

/-- `phidget::error_handler`: returns at once on `EPHIDGET_OK`; otherwise throws a
`runtime_error` built from the description (or the reason it is missing) and the code. -/
def error_handler (sdk : Sdk) (code : ReturnCode) (w : World) : Except String Unit × World :=
  if code = EPHIDGET_OK then
    (Except.ok (), w)
  else
    let oss := "phidget::error_handler: "
    let r := get_error_description sdk code w
    let oss1 :=
      match r.1 with
      | Except.ok description => oss ++ description ++ " "
      | Except.error what => oss ++ "unable to get error description (" ++ what ++ ") "
    (Except.error (oss1 ++ "(" ++ toString code ++ ")"), r.2)

/-! ## Channel initializer -/

/-- `initChannel`: installs the attach, detach and error handlers in this order and
returns the first non-success code after a diagnostic on `std::cerr`. -/
def initChannel (sdk : Sdk) (ch : Handle) (w : World) : ReturnCode × World :=
  let res := sdk.Phidget_setOnAttachHandler ch
  let w1 := w.call (Call.Phidget_setOnAttachHandler ch)
  if res ≠ EPHIDGET_OK then
    (res, w1.err "failed to assign on attach handler\n")
  else
    let res := sdk.Phidget_setOnDetachHandler ch
    let w2 := w1.call (Call.Phidget_setOnDetachHandler ch)
    if res ≠ EPHIDGET_OK then
      (res, w2.err "failed to assign on detach handler\n")
    else
      let res := sdk.Phidget_setOnErrorHandler ch
      let w3 := w2.call (Call.Phidget_setOnErrorHandler ch)
      if res ≠ EPHIDGET_OK then
        (res, w3.err "failed to assign on error handler\n")
      else
        (EPHIDGET_OK, w3)

/-! ## Spatial session -/

/-- `phidget::HandleWrapper<SpatialHandle>`: the stored spatial handle. -/
structure HandleWrapper where
  base : Handle
  deriving DecidableEq, Repr

/-- `HandleWrapper::as_handle`: a `reinterpret_cast`, the same pointer value. -/
def HandleWrapper.as_handle (h : HandleWrapper) : Handle := h.base

/-- `phidget::Spatial`: the session object, owning one handle. -/
structure Spatial where
  handle : HandleWrapper
  deriving DecidableEq, Repr

/-- `Spatial::Spatial()`: create the handle, run `initChannel`, install the spatial-data
handler; each step goes through `error_handler` and a failure is rethrown with context.
A constructor that throws yields no object, so its destructor never runs. -/
def Spatial.new (sdk : Sdk) (w : World) : Except String Spatial × World :=
  let handle : HandleWrapper := ⟨sdk.PhidgetSpatial_create.2⟩
  let w1 := w.call Call.PhidgetSpatial_create
  let r1 := error_handler sdk sdk.PhidgetSpatial_create.1 w1
  match r1.1 with
  | Except.error what =>
    (Except.error ("phidget::Spatial::Spatial: failed to create Spatial handle: " ++ what), r1.2)
  | Except.ok _ =>
    let i := initChannel sdk handle.as_handle r1.2
    let r2 := error_handler sdk i.1 i.2
    match r2.1 with
    | Except.error what =>
      (Except.error ("phidget::Spatial::Spatial: failed to initialize channel: " ++ what), r2.2)
    | Except.ok _ =>
      let res := sdk.PhidgetSpatial_setOnSpatialDataHandler handle.base
      let w3 := r2.2.call (Call.PhidgetSpatial_setOnSpatialDataHandler handle.base)
      let r3 := error_handler sdk res w3
      match r3.1 with
      | Except.error what =>
        (Except.error
          ("phidget::Spatial::Spatial: failed to set spatial data change handler: " ++ what),
          r3.2)
      | Except.ok _ => (Except.ok ⟨handle⟩, r3.2)

/-- `Spatial::~Spatial()`: `Phidget_close` on the handle, then `PhidgetSpatial_delete` on
the address of the handle (the SDK may overwrite the stored handle through it). Both
return codes are discarded. The object state after the body is returned as well, so
that a second invocation can be traced. -/
def Spatial.destroy (sdk : Sdk) (s : Spatial) (w : World) : Spatial × World :=
  let w1 := w.call (Call.Phidget_close s.handle.as_handle)
  let w2 := w1.call (Call.PhidgetSpatial_delete s.handle.base)
  (⟨⟨(sdk.PhidgetSpatial_delete s.handle.base).2⟩⟩, w2)

/-- `Spatial::open_wait_for_attachment`: one blocking SDK call through `error_handler`;
a failure is rethrown with context. -/
def Spatial.open_wait_for_attachment (sdk : Sdk) (s : Spatial) (timeout_ms : Nat) (w : World) :
    Except String Unit × World :=
  let res := sdk.Phidget_openWaitForAttachment s.handle.as_handle timeout_ms
  let w1 := w.call (Call.Phidget_openWaitForAttachment s.handle.as_handle timeout_ms)
  let r := error_handler sdk res w1
  match r.1 with
  | Except.error what =>
    (Except.error
      ("phidget::Spatial::open_wait_for_attachment: failed to open channel: " ++ what), r.2)
  | Except.ok _ => (Except.ok (), r.2)

/-! ## Event callbacks -/

/-- `onAttachHandler`: reads serial, channel and hub port; a failed serial or channel read
ends the callback after a diagnostic; a failed hub-port read sets the port to -1, and a
port of -1 drops the hub-port clause from the line. -/
def onAttachHandler (sdk : Sdk) (phid : Handle) (w : World) : World :=
  let res := (sdk.Phidget_getDeviceSerialNumber phid).1
  let serial := (sdk.Phidget_getDeviceSerialNumber phid).2
  let w1 := w.call (Call.Phidget_getDeviceSerialNumber phid)
  if res ≠ EPHIDGET_OK then
    w1.err "failed to get device serial number\n"
  else
    let res := (sdk.Phidget_getChannel phid).1
    let channel := (sdk.Phidget_getChannel phid).2
    let w2 := w1.call (Call.Phidget_getChannel phid)
    if res ≠ EPHIDGET_OK then
      w2.err "failed to get channel number\n"
    else
      let res := (sdk.Phidget_getHubPort phid).1
      let w3 := w2.call (Call.Phidget_getHubPort phid)
      let hubPort : Int := if res ≠ EPHIDGET_OK then -1 else (sdk.Phidget_getHubPort phid).2
      let w4 := if res ≠ EPHIDGET_OK then w3.err "failed to get hub port\n" else w3
      if hubPort = -1 then
        w4.out ("channel " ++ toString channel ++ " on device " ++ toString serial
          ++ " attached" ++ "\n")
      else
        w4.out ("channel " ++ toString channel ++ " on device " ++ toString serial
          ++ " hub port " ++ toString hubPort ++ " attached" ++ "\n")

/-- `onDetachHandler`: as written in the source, where the test on the hub port is
`hubPort != -1` and a failed hub-port read writes no diagnostic. -/
def onDetachHandler (sdk : Sdk) (phid : Handle) (w : World) : World :=
  let res := (sdk.Phidget_getDeviceSerialNumber phid).1
  let serial := (sdk.Phidget_getDeviceSerialNumber phid).2
  let w1 := w.call (Call.Phidget_getDeviceSerialNumber phid)
  if res ≠ EPHIDGET_OK then
    w1.err "failed to get device serial number\n"
  else
    let res := (sdk.Phidget_getChannel phid).1
    let channel := (sdk.Phidget_getChannel phid).2
    let w2 := w1.call (Call.Phidget_getChannel phid)
    if res ≠ EPHIDGET_OK then
      w2.err "failed to get channel number\n"
    else
      let res := (sdk.Phidget_getHubPort phid).1
      let w3 := w2.call (Call.Phidget_getHubPort phid)
      let hubPort : Int := if res ≠ EPHIDGET_OK then -1 else (sdk.Phidget_getHubPort phid).2
      if hubPort ≠ -1 then
        w3.out ("channel " ++ toString channel ++ " on device " ++ toString serial
          ++ " detached" ++ "\n")
      else
        w3.out ("channel " ++ toString channel ++ " on device " ++ toString serial
          ++ " hub port " ++ toString hubPort ++ " detached" ++ "\n")

/-! ## Rendering of `double` values

`os << x` for a `double` on a stream with default `floatfield` is the C library
conversion `%g` at the stream precision.  A `double` is modelled by its exact value, and
the conversion by exact decimal arithmetic with round-half-even, as the C standard
describes it: with `P` the precision (1 when it is 0) and `X` the decimal exponent after
rounding to `P` significant digits, style `f` is used when `-4 ≤ X < P` and style `e`
otherwise, and trailing zeros of the fraction are removed.  Infinities and NaNs are
written as `inf` and `nan`, after a `-` when the sign bit is set.
-/

/-- A C `double`: a finite value `±m·2^e`, an infinity, or a NaN, each with its sign bit. -/
inductive Double where
  | finite (neg : Bool) (m : Nat) (e : Int)
  | inf (neg : Bool)
  | nan (neg : Bool)
  deriving DecidableEq, Repr

/-- Quotient of `n` by `d` rounded to nearest, ties to even. -/
def roundDiv (n d : Nat) : Nat :=
  let q := n / d
  let r := n % d
  if 2 * r < d then q else if d < 2 * r then q + 1 else if q % 2 = 0 then q else q + 1

/-- For `den ≤ num`: least `k` from the start value on with `num < den * 10^(k+1)`,
searched with fuel. -/
def firstAbove (num den : Nat) : Nat → Nat → Nat
  | 0, k => k
  | fuel + 1, k => if num < den * 10 ^ (k + 1) then k else firstAbove num den fuel (k + 1)

/-- For `num < den`: least `k` from the start value on with `den ≤ num * 10^(k+1)`,
searched with fuel. -/
def firstScale (num den : Nat) : Nat → Nat → Nat
  | 0, k => k
  | fuel + 1, k => if den ≤ num * 10 ^ (k + 1) then k else firstScale num den fuel (k + 1)

/-- Decimal exponent of the positive rational `num/den`: the `X` with
`10^X ≤ num/den < 10^(X+1)`. -/
def decExponent (num den : Nat) : Int :=
  if den ≤ num then (firstAbove num den num 0 : Int)
  else - ((firstScale num den den 0 : Int) + 1)

/-- The rational `num/den` divided by `10^(X-P+1)` and rounded: its first `P` significant
digits when `X` is its decimal exponent. -/
def sigDigits (num den : Nat) (P : Nat) (X : Int) : Nat :=
  let s : Int := (P : Int) - 1 - X
  if 0 ≤ s then roundDiv (num * 10 ^ s.toNat) den else roundDiv num (den * 10 ^ (-s).toNat)

/-- The last `P` decimal digits of `D`, most significant first. -/
def digitsFixed : Nat → Nat → List Char
  | 0, _ => []
  | P + 1, D => digitsFixed P (D / 10) ++ [Nat.digitChar (D % 10)]

/-- Drop trailing `'0'` characters. -/
def stripZeros (cs : List Char) : List Char :=
  (cs.reverse.dropWhile (fun c => c = '0')).reverse

/-- A fraction part with its decimal point, or nothing when no digit is left. -/
def fracPart (cs : List Char) : List Char :=
  if stripZeros cs = [] then [] else '.' :: stripZeros cs

/-- Exponent suffix of style `e`: the letter, a sign and at least two digits. -/
def expPart (X : Int) : List Char :=
  let a := X.natAbs
  let ds := Nat.toDigits 10 a
  'e' :: (if X < 0 then '-' else '+') :: (if a < 10 then '0' :: ds else ds)

/-- Layout of the `%g` conversion from the `P` significant digits `ds` and the decimal
exponent `X`: style `f` when `-4 ≤ X < P`, style `e` otherwise, trailing zeros removed. -/
def layoutG (ds : List Char) (X : Int) (P : Nat) : List Char :=
  if -4 ≤ X ∧ X < P then
    if 0 ≤ X then
      ds.take (X.toNat + 1) ++ fracPart (ds.drop (X.toNat + 1))
    else
      '0' :: fracPart (List.replicate ((-X).toNat - 1) '0' ++ ds)
  else
    ds.take 1 ++ fracPart (ds.drop 1) ++ expPart X

/-- The `%g` conversion of the positive rational `num/den` with precision `P ≥ 1`: round
to `P` significant digits (a carry to `10^P` moves the exponent up), then lay out. -/
def printGPos (num den P : Nat) : List Char :=
  let X0 := decExponent num den
  let D0 := sigDigits num den P X0
  let X := if D0 = 10 ^ P then X0 + 1 else X0
  let D := if D0 = 10 ^ P then 10 ^ (P - 1) else D0
  layoutG (digitsFixed P D) X P

/-- The text of `os << x` for a `double` at the given stream precision. -/
def printDouble (precision : Nat) : Double → String
  | Double.nan neg => if neg then "-nan" else "nan"
  | Double.inf neg => if neg then "-inf" else "inf"
  | Double.finite neg m e =>
    let P := if precision = 0 then 1 else precision
    let body : List Char :=
      if m = 0 then ['0']
      else if 0 ≤ e then printGPos (m * 2 ^ e.toNat) 1 P
      else printGPos m (2 ^ (-e).toNat) P
    String.mk ((if neg then ['-'] else []) ++ body)

/-! ## Reading a decimal numeral

What number a written numeral denotes, independently of how it was produced: an
optional `-`, digits, an optional point with more digits, an optional exponent suffix.
The renderings are checked against it.
-/

/-- Value of a decimal digit character. -/
def digitValue (c : Char) : Nat := c.toNat - 48

/-- Reads a run of decimal digits, most significant first, onto `acc`. -/
def readDigits : List Char → Nat → Option Nat
  | [], acc => some acc
  | c :: cs, acc => if c.isDigit then readDigits cs (10 * acc + digitValue c) else none

/-- The number written by a run of decimal digits. -/
def digitsNat (l : List Char) : Nat := l.foldl (fun a c => 10 * a + digitValue c) 0

/-- Splits a text before the first occurrence of `c`. -/
def cutAt (c : Char) : List Char → List Char × List Char
  | [] => ([], [])
  | x :: xs => if x = c then ([], x :: xs) else (x :: (cutAt c xs).1, (cutAt c xs).2)

/-- Reads an exponent suffix: nothing, or a letter, a sign and digits. -/
def readExponent : List Char → Option Int
  | [] => some 0
  | [_] => none
  | _ :: s :: ds =>
    if ds = [] then none
    else if s = '-' then (readDigits ds 0).map (fun n => -(n : Int))
    else if s = '+' then (readDigits ds 0).map (fun n => (n : Int))
    else none

/-- Reads an unsigned decimal numeral `ddd[.ddd][e±dd]` as digits `N` and exponent `E`:
the numeral denotes `N * 10^E`. -/
def readUnsigned (body : List Char) : Option (Nat × Int) :=
  let mant := (cutAt 'e' body).1
  let ex := (cutAt 'e' body).2
  let ip := (cutAt '.' mant).1
  let fp := (cutAt '.' mant).2.tail
  if ip = [] then none
  else
    match readDigits (ip ++ fp) 0, readExponent ex with
    | some N, some E => some (N, E - fp.length)
    | _, _ => none

/-- Reads a decimal numeral with an optional leading `-` as sign, digits `N` and
exponent `E`: the numeral denotes `±N * 10^E`. -/
def readDecimal : List Char → Option (Bool × Nat × Int)
  | '-' :: body => (readUnsigned body).map (fun r => (true, r.1, r.2))
  | t => (readUnsigned t).map (fun r => (false, r.1, r.2))

/-- The rational number a decimal numeral denotes. -/
def decimalValue (t : List Char) : Option ℚ :=
  (readDecimal t).map (fun r => (if r.1 then -1 else 1) * (r.2.1 : ℚ) * (10 : ℚ) ^ r.2.2)

/-- `onSpatialDataHandler`: sets the precision of `std::cout` to 15, then writes the three
triples (read at indices 0, 1, 2 of the arrays passed) and the timestamp, one labelled
line each, and an empty line. -/
def onSpatialDataHandler (acceleration angularRate magneticField : Nat → Double)
    (timestamp : Double) (w : World) : World :=
  let w1 : World := { w with precision := 15 }
  let p := w1.precision
  w1.out ("Acceleration Changed: " ++ printDouble p (acceleration 0) ++ ", "
      ++ printDouble p (acceleration 1) ++ ", " ++ printDouble p (acceleration 2) ++ "\n"
    ++ "Angular Rate Changed: " ++ printDouble p (angularRate 0) ++ ", "
      ++ printDouble p (angularRate 1) ++ ", " ++ printDouble p (angularRate 2) ++ "\n"
    ++ "Magnetic Field Changed: " ++ printDouble p (magneticField 0) ++ ", "
      ++ printDouble p (magneticField 1) ++ ", " ++ printDouble p (magneticField 2) ++ "\n"
    ++ "Timestamp: " ++ printDouble p timestamp ++ "\n"
    ++ "\n")

/-! ## Range printer

An iterator into a sequence is modelled by the part of the sequence from its position to
the end: dereferencing reads the head (undefined at the end position), `++` drops it,
and two iterators into the same sequence are equal when as much is left after both.
-/

/-- `Range<T>`: a pair of iterators `first`, `last` into one sequence. -/
structure Range (α : Type) where
  first : List α
  last : List α

/-- `make_range(x)`: the range from `std::begin(x)` to `std::end(x)`. -/
def make_range {α : Type} (x : List α) : Range α := ⟨x, []⟩

/-- The loop of the `Range` printer, `for (; first != last; ++first) os << ", " << *first`.
The state is the stream text and the elements read so far; a read at the end position
has no defined result (`none`). -/
def Range.loop {α : Type} (render : α → String) (last : List α) :
    List α → String × List α → Option (String × List α)
  | [], st => if ([] : List α).length = last.length then some st else none
  | x :: rest, st =>
    if (x :: rest).length = last.length then some st
    else Range.loop render last rest (st.1 ++ ", " ++ render x, st.2 ++ [x])

/-- `operator<<(std::ostream&, const Range<InputIterator>&)`: writes `'['` and `*first++`
before any comparison with `last` (for an empty range that is a read at the end
position: `none`), runs the loop, and writes `']'`. The result is the stream text and
the elements read, in reading order. -/
def Range.write {α : Type} (render : α → String) (iterator_pair : Range α) (os : String) :
    Option (String × List α) :=
  match iterator_pair.first with
  | [] => none
  | x :: rest =>
    match Range.loop render iterator_pair.last rest (os ++ "[" ++ render x, [x]) with
    | none => none
    | some st => some (st.1 ++ "]", st.2)

/-! ## Concrete SDK answers used to evaluate the code -/

deriving instance DecidableEq for Except

/-- An SDK on which every call succeeds: the created handle is 7, the deleted handle is
left null, the device has serial 1, channel 0 and hub port 3. -/
def mockOk : Sdk where
  PhidgetSpatial_create := (0, 7)
  PhidgetSpatial_delete := fun _ => (0, 0)
  Phidget_close := fun _ => 0
  Phidget_openWaitForAttachment := fun _ _ => 0
  Phidget_setOnAttachHandler := fun _ => 0
  Phidget_setOnDetachHandler := fun _ => 0
  Phidget_setOnErrorHandler := fun _ => 0
  PhidgetSpatial_setOnSpatialDataHandler := fun _ => 0
  Phidget_getDeviceSerialNumber := fun _ => (0, 1)
  Phidget_getChannel := fun _ => (0, 0)
  Phidget_getHubPort := fun _ => (0, 3)
  Phidget_getErrorDescription := fun _ => (0, "Timed Out")

/-- As `mockOk`, but `PhidgetSpatial_create` returns code 3 and stores nothing useful. -/
def mockCreateFails : Sdk := { mockOk with PhidgetSpatial_create := (3, 0) }

/-- As `mockOk`, but the description lookup itself returns code 5. -/
def mockDescribeFails : Sdk := { mockOk with Phidget_getErrorDescription := fun _ => (5, "") }

/-- As `mockOk`, but `Phidget_getHubPort` returns code 20: the hub port is absent. -/
def mockNoHubPort : Sdk := { mockOk with Phidget_getHubPort := fun _ => (20, 0) }

/-- As `mockOk`, but `Phidget_getHubPort` succeeds and stores -1. -/
def mockHubPortMinusOne : Sdk := { mockOk with Phidget_getHubPort := fun _ => (0, -1) }

/-- As `mockOk`, but `Phidget_getChannel` returns code 3. -/
def mockChannelFails : Sdk := { mockOk with Phidget_getChannel := fun _ => (3, 0) }

/-- The `double` with the value of the natural number `n`. -/
def Double.ofNat (n : Nat) : Double := Double.finite false n 0

/-- The array of three `double`s `a, b, c`, as the memory read through the pointer. -/
def vec3 (a b c : Double) : Nat → Double
  | 0 => a
  | 1 => b
  | _ => c

/-! ## Rendering of `double` values: rounding and denotation -/

/-- The search of `firstAbove` ends at the `k` with `den * 10^k ≤ num < den * 10^(k+1)`. -/
theorem firstAbove_spec (num den : Nat) (fuel k : Nat)
    (hlo : den * 10 ^ k ≤ num) (hhi : num < den * 10 ^ (k + fuel + 1)) :
    den * 10 ^ firstAbove num den fuel k ≤ num ∧
      num < den * 10 ^ (firstAbove num den fuel k + 1) := by
  induction fuel generalizing k with
  | zero => exact ⟨hlo, by simpa [firstAbove] using hhi⟩
  | succ fuel ih =>
    unfold firstAbove
    split
    · rename_i h
      exact ⟨hlo, h⟩
    · rename_i h
      apply ih
      · omega
      · have : k + 1 + fuel + 1 = k + (fuel + 1) + 1 := by omega
        rw [this]; exact hhi

/-- The search of `firstScale` ends at the `k` with `num * 10^k < den ≤ num * 10^(k+1)`. -/
theorem firstScale_spec (num den : Nat) (fuel k : Nat)
    (hlo : num * 10 ^ k < den) (hhi : den ≤ num * 10 ^ (k + fuel + 1)) :
    num * 10 ^ firstScale num den fuel k < den ∧
      den ≤ num * 10 ^ (firstScale num den fuel k + 1) := by
  induction fuel generalizing k with
  | zero => exact ⟨hlo, by simpa [firstScale] using hhi⟩
  | succ fuel ih =>
    unfold firstScale
    split
    · rename_i h
      exact ⟨hlo, h⟩
    · rename_i h
      apply ih
      · omega
      · have : k + 1 + fuel + 1 = k + (fuel + 1) + 1 := by omega
        rw [this]; exact hhi

/-- The decimal exponent brackets the value: `10^X ≤ num/den < 10^(X+1)`. -/
theorem decExponent_bounds (num den : Nat) (hn : 0 < num) (hd : 0 < den) :
    (10 : ℚ) ^ decExponent num den ≤ (num : ℚ) / den ∧
      (num : ℚ) / den < (10 : ℚ) ^ (decExponent num den + 1) := by
  have hdq : (0 : ℚ) < den := by exact_mod_cast hd
  unfold decExponent
  split
  · rename_i h
    have hhi : num < den * 10 ^ (0 + num + 1) := by
      have h1 : num < 10 ^ num := Nat.lt_pow_self (by norm_num) num
      have h2 : 10 ^ num ≤ 10 ^ (0 + num + 1) := Nat.pow_le_pow_right (by norm_num) (by omega)
      calc num < 10 ^ (0 + num + 1) := lt_of_lt_of_le h1 h2
        _ = 1 * 10 ^ (0 + num + 1) := by ring
        _ ≤ den * 10 ^ (0 + num + 1) := Nat.mul_le_mul_right _ hd
    obtain ⟨h1, h2⟩ := firstAbove_spec num den num 0 (by simpa using h) hhi
    constructor
    · rw [zpow_natCast, le_div_iff₀ hdq]
      have : ((den * 10 ^ firstAbove num den num 0 : Nat) : ℚ) ≤ (num : ℚ) := by exact_mod_cast h1
      push_cast at this
      linarith
    · rw [show ((firstAbove num den num 0 : ℤ) + 1) = ((firstAbove num den num 0 + 1 : Nat) : ℤ) by
        push_cast; ring, zpow_natCast, div_lt_iff₀ hdq]
      have : (num : ℚ) < ((den * 10 ^ (firstAbove num den num 0 + 1) : Nat) : ℚ) := by
        exact_mod_cast h2
      push_cast at this
      linarith
  · rename_i h
    have hlt : num < den := by omega
    have hhi : den ≤ num * 10 ^ (0 + den + 1) := by
      have h1 : den < 10 ^ den := Nat.lt_pow_self (by norm_num) den
      have h2 : 10 ^ den ≤ 10 ^ (0 + den + 1) := Nat.pow_le_pow_right (by norm_num) (by omega)
      calc den ≤ 10 ^ (0 + den + 1) := le_of_lt (lt_of_lt_of_le h1 h2)
        _ = 1 * 10 ^ (0 + den + 1) := by ring
        _ ≤ num * 10 ^ (0 + den + 1) := Nat.mul_le_mul_right _ hn
    obtain ⟨h1, h2⟩ := firstScale_spec num den den 0 (by simpa using hlt) hhi
    have hpos : ∀ n : Nat, (0 : ℚ) < 10 ^ n := fun n => by positivity
    constructor
    · rw [show (-((firstScale num den den 0 : ℤ) + 1)) = -((firstScale num den den 0 + 1 : Nat) : ℤ) by
        push_cast; ring, zpow_neg, zpow_natCast, le_div_iff₀ hdq, inv_mul_le_iff₀ (hpos _)]
      have : ((den : Nat) : ℚ) ≤ ((num * 10 ^ (firstScale num den den 0 + 1) : Nat) : ℚ) := by
        exact_mod_cast h2
      push_cast at this
      linarith
    · rw [show (-((firstScale num den den 0 : ℤ) + 1) + 1) = -((firstScale num den den 0 : Nat) : ℤ) by
        ring, zpow_neg, zpow_natCast, div_lt_iff₀ hdq, lt_inv_mul_iff₀ (hpos _)]
      have : ((num * 10 ^ (firstScale num den den 0) : Nat) : ℚ) < ((den : Nat) : ℚ) := by
        exact_mod_cast h1
      push_cast at this
      linarith


/-- Rounding is to nearest: the rounded quotient is within half a unit, and on a tie it is even. -/
theorem roundDiv_bounds (n d : Nat) (hd : 0 < d) :
    2 * n ≤ 2 * (roundDiv n d * d) + d ∧ 2 * (roundDiv n d * d) ≤ 2 * n + d ∧
    ((2 * n = 2 * (roundDiv n d * d) + d ∨ 2 * (roundDiv n d * d) = 2 * n + d) →
      roundDiv n d % 2 = 0) := by
  have hdiv : d * (n / d) + n % d = n := Nat.div_add_mod n d
  have hmod : n % d < d := Nat.mod_lt n hd
  have hq : n / d * d = d * (n / d) := Nat.mul_comm _ _
  have hq1 : (n / d + 1) * d = d * (n / d) + d := by ring
  unfold roundDiv
  simp only
  split
  · rw [hq]
    refine ⟨by omega, by omega, ?_⟩
    intro h
    omega
  · split
    · rw [hq1]
      refine ⟨by omega, by omega, ?_⟩
      intro h
      omega
    · split
      · rename_i h
        rw [hq]
        exact ⟨by omega, by omega, fun _ => h⟩
      · rename_i h
        rw [hq1]
        exact ⟨by omega, by omega, fun _ => by omega⟩

/-- Rounding to nearest, ties to even, stated over the rationals. -/
theorem roundDiv_abs (n d : Nat) (hd : 0 < d) :
    |(n : ℚ) / d - (roundDiv n d : ℚ)| * 2 ≤ 1 ∧
    (|(n : ℚ) / d - (roundDiv n d : ℚ)| * 2 = 1 → roundDiv n d % 2 = 0) := by
  have hdq : (0 : ℚ) < d := by exact_mod_cast hd
  obtain ⟨h1, h2, h3⟩ := roundDiv_bounds n d hd
  have h1q : (2 : ℚ) * n ≤ 2 * (roundDiv n d * d) + d := by exact_mod_cast h1
  have h2q : (2 : ℚ) * (roundDiv n d * d) ≤ 2 * n + d := by exact_mod_cast h2
  have key : |(n : ℚ) / d - roundDiv n d| * 2 = |(n : ℚ) - roundDiv n d * d| * 2 / d := by
    have : (n : ℚ) / d - roundDiv n d = ((n : ℚ) - roundDiv n d * d) / d := by
      field_simp
      ring
    rw [this, abs_div, abs_of_pos hdq]
    ring
  rw [key]
  constructor
  · rw [div_le_one hdq]
    rcases abs_cases ((n : ℚ) - roundDiv n d * d) with ⟨h, _⟩ | ⟨h, _⟩ <;> rw [h] <;> linarith
  · intro h
    rw [div_eq_one_iff_eq (ne_of_gt hdq)] at h
    apply h3
    rcases abs_cases ((n : ℚ) - roundDiv n d * d) with ⟨ha, _⟩ | ⟨ha, _⟩
    · left
      rw [ha] at h
      have : (2 : ℚ) * n = 2 * (roundDiv n d * d) + d := by linarith
      exact_mod_cast this
    · right
      rw [ha] at h
      have : (2 : ℚ) * (roundDiv n d * d) = 2 * n + d := by linarith
      exact_mod_cast this

/-- The scaled value that `sigDigits` rounds. -/
theorem sigDigits_abs (num den P : Nat) (X : Int) (hd : 0 < den) :
    |(num : ℚ) / den * (10 : ℚ) ^ ((P : ℤ) - 1 - X) - (sigDigits num den P X : ℚ)| * 2 ≤ 1 ∧
    (|(num : ℚ) / den * (10 : ℚ) ^ ((P : ℤ) - 1 - X) - (sigDigits num den P X : ℚ)| * 2 = 1 →
      sigDigits num den P X % 2 = 0) := by
  have hdq : (0 : ℚ) < den := by exact_mod_cast hd
  unfold sigDigits
  simp only
  split
  · rename_i h
    have hs : (10 : ℚ) ^ ((P : ℤ) - 1 - X) = ((10 ^ ((P : ℤ) - 1 - X).toNat : Nat) : ℚ) := by
      conv_lhs => rw [← Int.toNat_of_nonneg h]
      rw [zpow_natCast]
      push_cast
      rfl
    have hv : (num : ℚ) / den * (10 : ℚ) ^ ((P : ℤ) - 1 - X)
        = ((num * 10 ^ ((P : ℤ) - 1 - X).toNat : Nat) : ℚ) / den := by
      rw [hs]; push_cast; ring
    rw [hv]
    exact roundDiv_abs _ _ hd
  · rename_i h
    have hneg : 0 ≤ -((P : ℤ) - 1 - X) := by omega
    have hpos : (0 : ℚ) < 10 ^ (-((P : ℤ) - 1 - X)).toNat := by positivity
    have hs : (10 : ℚ) ^ ((P : ℤ) - 1 - X) = (((10 ^ (-((P : ℤ) - 1 - X)).toNat : Nat) : ℚ))⁻¹ := by
      conv_lhs => rw [← neg_neg ((P : ℤ) - 1 - X), zpow_neg, ← Int.toNat_of_nonneg hneg]
      rw [zpow_natCast]
      push_cast
      rfl
    have hv : (num : ℚ) / den * (10 : ℚ) ^ ((P : ℤ) - 1 - X)
        = (num : ℚ) / ((den * 10 ^ (-((P : ℤ) - 1 - X)).toNat : Nat) : ℚ) := by
      rw [hs]; push_cast; field_simp
    rw [hv]
    exact roundDiv_abs _ _ (Nat.mul_pos hd (by positivity))


/-- The digits and exponent that `printGPos` lays out: `D` has exactly `P` digits and
`D * 10^(X-P+1)` is `num/den` rounded to nearest, ties to even. -/
theorem printGPos_rounds (num den P : Nat) (hn : 0 < num) (hd : 0 < den) (hP : 0 < P) :
    ∃ (D : Nat) (X : Int), 10 ^ (P - 1) ≤ D ∧ D < 10 ^ P ∧
      |(num : ℚ) / den - (D : ℚ) * (10 : ℚ) ^ (X - P + 1)| * 2 ≤ (10 : ℚ) ^ (X - P + 1) ∧
      (|(num : ℚ) / den - (D : ℚ) * (10 : ℚ) ^ (X - P + 1)| * 2 = (10 : ℚ) ^ (X - P + 1) →
        D % 2 = 0) ∧
      printGPos num den P = layoutG (digitsFixed P D) X P := by
  obtain ⟨hlo, hhi⟩ := decExponent_bounds num den hn hd
  obtain ⟨habs, htie⟩ := sigDigits_abs num den P (decExponent num den) hd
  have h10 : (10 : ℚ) ≠ 0 := by norm_num
  have hspos : (0 : ℚ) < (10 : ℚ) ^ ((P : ℤ) - 1 - decExponent num den) := by positivity
  have hupos : (0 : ℚ) < (10 : ℚ) ^ (decExponent num den - P + 1) := by positivity
  have hsu : (10 : ℚ) ^ ((P : ℤ) - 1 - decExponent num den)
      * (10 : ℚ) ^ (decExponent num den - P + 1) = 1 := by
    rw [← zpow_add₀ h10]
    have : (P : ℤ) - 1 - decExponent num den + (decExponent num den - P + 1) = 0 := by ring
    rw [this, zpow_zero]
  have hPm : (10 : ℚ) ^ ((P : ℤ) - 1) = ((10 ^ (P - 1) : Nat) : ℚ) := by
    rw [show ((P : ℤ) - 1) = ((P - 1 : Nat) : ℤ) by omega, zpow_natCast]
    push_cast
    rfl
  have hPP : (10 : ℚ) ^ (P : ℤ) = ((10 ^ P : Nat) : ℚ) := by
    rw [zpow_natCast]
    push_cast
    rfl
  have htlo : ((10 ^ (P - 1) : Nat) : ℚ)
      ≤ (num : ℚ) / den * (10 : ℚ) ^ ((P : ℤ) - 1 - decExponent num den) := by
    have h1 : (10 : ℚ) ^ decExponent num den
        * (10 : ℚ) ^ ((P : ℤ) - 1 - decExponent num den) = (10 : ℚ) ^ ((P : ℤ) - 1) := by
      rw [← zpow_add₀ h10]
      congr 1
      ring
    rw [← hPm, ← h1]
    exact mul_le_mul_of_nonneg_right hlo hspos.le
  have hthi : (num : ℚ) / den * (10 : ℚ) ^ ((P : ℤ) - 1 - decExponent num den)
      < ((10 ^ P : Nat) : ℚ) := by
    have h1 : (10 : ℚ) ^ (decExponent num den + 1)
        * (10 : ℚ) ^ ((P : ℤ) - 1 - decExponent num den) = (10 : ℚ) ^ (P : ℤ) := by
      rw [← zpow_add₀ h10]
      congr 1
      ring
    rw [← hPP, ← h1]
    exact mul_lt_mul_of_pos_right hhi hspos
  have hvu : (num : ℚ) / den = (num : ℚ) / den
      * (10 : ℚ) ^ ((P : ℤ) - 1 - decExponent num den)
      * (10 : ℚ) ^ (decExponent num den - P + 1) := by
    rw [mul_assoc, hsu, mul_one]
  have habs2 := abs_le.1 (show |(num : ℚ) / den * (10 : ℚ) ^ ((P : ℤ) - 1 - decExponent num den)
      - (sigDigits num den P (decExponent num den) : ℚ)| ≤ 1 / 2 by linarith)
  have hD0lo : 10 ^ (P - 1) ≤ sigDigits num den P (decExponent num den) := by
    have : ((10 ^ (P - 1) : Nat) : ℚ) < (sigDigits num den P (decExponent num den) : ℚ) + 1 := by
      linarith [habs2.1, habs2.2]
    have h2 : 10 ^ (P - 1) < sigDigits num den P (decExponent num den) + 1 := by
      exact_mod_cast this
    omega
  have hD0hi : sigDigits num den P (decExponent num den) ≤ 10 ^ P := by
    have : (sigDigits num den P (decExponent num den) : ℚ) < ((10 ^ P : Nat) : ℚ) + 1 := by
      linarith [habs2.1, habs2.2]
    have h2 : sigDigits num den P (decExponent num den) < 10 ^ P + 1 := by
      exact_mod_cast this
    omega
  -- the error in units of the last place
  have herr : ∀ D : ℚ, |(num : ℚ) / den - D * (10 : ℚ) ^ (decExponent num den - P + 1)|
      = |(num : ℚ) / den * (10 : ℚ) ^ ((P : ℤ) - 1 - decExponent num den) - D|
        * (10 : ℚ) ^ (decExponent num den - P + 1) := by
    intro D
    rw [← abs_of_pos hupos, ← abs_mul, abs_of_pos hupos, sub_mul, ← hvu]
  have hu10 : (10 : ℚ) ^ (decExponent num den + 1 - P + 1)
      = 10 * (10 : ℚ) ^ (decExponent num den - P + 1) := by
    rw [show decExponent num den + 1 - (P : ℤ) + 1 = (decExponent num den - P + 1) + 1 by ring,
      zpow_add_one₀ h10]
    ring
  have hD : ((10 ^ (P - 1) : Nat) : ℚ) * (10 * (10 : ℚ) ^ (decExponent num den - P + 1))
      = ((10 ^ P : Nat) : ℚ) * (10 : ℚ) ^ (decExponent num den - P + 1) := by
    have : 10 ^ P = 10 ^ (P - 1) * 10 := by
      rw [← pow_succ]
      congr 1
      omega
    rw [this]
    push_cast
    ring
  by_cases hc : sigDigits num den P (decExponent num den) = 10 ^ P
  · refine ⟨10 ^ (P - 1), decExponent num den + 1, le_refl _,
      Nat.pow_lt_pow_right (by norm_num) (by omega), ?_, ?_, ?_⟩
    · rw [hu10, hD, ← hc, herr]
      have h1 : |(num : ℚ) / den * (10 : ℚ) ^ ((P : ℤ) - 1 - decExponent num den)
          - (sigDigits num den P (decExponent num den) : ℚ)|
          * (10 : ℚ) ^ (decExponent num den - P + 1) * 2
          ≤ 1 * (10 : ℚ) ^ (decExponent num den - P + 1) := by
        rw [mul_right_comm]
        exact mul_le_mul_of_nonneg_right habs hupos.le
      linarith
    · intro h
      exfalso
      rw [hu10, hD, ← hc, herr] at h
      have h1 : |(num : ℚ) / den * (10 : ℚ) ^ ((P : ℤ) - 1 - decExponent num den)
          - (sigDigits num den P (decExponent num den) : ℚ)|
          * (10 : ℚ) ^ (decExponent num den - P + 1) * 2
          ≤ 1 * (10 : ℚ) ^ (decExponent num den - P + 1) := by
        rw [mul_right_comm]
        exact mul_le_mul_of_nonneg_right habs hupos.le
      linarith
    · simp [printGPos, hc]
  · refine ⟨sigDigits num den P (decExponent num den), decExponent num den, hD0lo,
      by omega, ?_, ?_, ?_⟩
    · rw [herr]
      calc _ ≤ 1 * (10 : ℚ) ^ (decExponent num den - P + 1) := by
            rw [mul_right_comm]
            exact mul_le_mul_of_nonneg_right habs hupos.le
        _ = _ := one_mul _
    · intro h
      rw [herr, mul_right_comm] at h
      apply htie
      have := mul_right_cancel₀ (ne_of_gt hupos) (h.trans (one_mul _).symm)
      exact this
    · simp [printGPos, hc]


/-- Reading digits onto an accumulator shifts the accumulator left. -/
theorem foldl_digits_shift (l : List Char) (acc : Nat) :
    l.foldl (fun a c => 10 * a + digitValue c) acc = acc * 10 ^ l.length + digitsNat l := by
  unfold digitsNat
  induction l generalizing acc with
  | nil => simp
  | cons c cs ih =>
    simp only [List.foldl_cons, List.length_cons]
    rw [ih (10 * acc + digitValue c), ih (10 * 0 + digitValue c)]
    ring

/-- The number written by two runs of digits, one after the other. -/
theorem digitsNat_append (a b : List Char) :
    digitsNat (a ++ b) = digitsNat a * 10 ^ b.length + digitsNat b := by
  unfold digitsNat
  rw [List.foldl_append, foldl_digits_shift]
  rfl

/-- Reading a run of digits succeeds with the number it writes. -/
theorem readDigits_eq (l : List Char) (acc : Nat) (h : ∀ c ∈ l, c.isDigit = true) :
    readDigits l acc = some (acc * 10 ^ l.length + digitsNat l) := by
  induction l generalizing acc with
  | nil => simp [readDigits, digitsNat]
  | cons c cs ih =>
    have hc : c.isDigit = true := h c (List.mem_cons_self _ _)
    simp only [readDigits, hc, if_true]
    rw [ih _ (fun x hx => h x (List.mem_cons_of_mem _ hx))]
    congr 1
    rw [show c :: cs = [c] ++ cs from rfl, digitsNat_append]
    simp [digitsNat, pow_succ]
    ring

/-- The character of a decimal digit is a digit and has that value. -/
theorem digitChar_mod_ten (n : Nat) :
    (Nat.digitChar (n % 10)).isDigit = true ∧ digitValue (Nat.digitChar (n % 10)) = n % 10 := by
  have h : n % 10 < 10 := Nat.mod_lt n (by decide)
  generalize n % 10 = k at h
  interval_cases k <;> decide

/-- There are exactly `P` digits. -/
theorem digitsFixed_length (P D : Nat) : (digitsFixed P D).length = P := by
  induction P generalizing D with
  | zero => rfl
  | succ P ih => simp [digitsFixed, ih]

/-- All characters of `digitsFixed` are digits. -/
theorem digitsFixed_isDigit (P D : Nat) : ∀ c ∈ digitsFixed P D, c.isDigit = true := by
  induction P generalizing D with
  | zero => simp [digitsFixed]
  | succ P ih =>
    intro c hc
    simp only [digitsFixed, List.mem_append, List.mem_singleton] at hc
    rcases hc with h | h
    · exact ih _ c h
    · rw [h]; exact (digitChar_mod_ten D).1

/-- The `P` digits write `D` modulo `10^P`. -/
theorem digitsNat_digitsFixed (P D : Nat) : digitsNat (digitsFixed P D) = D % 10 ^ P := by
  induction P generalizing D with
  | zero => simp [digitsFixed, digitsNat, Nat.mod_one]
  | succ P ih =>
    simp only [digitsFixed]
    rw [digitsNat_append, ih]
    simp only [List.length_singleton, pow_one]
    have h1 : digitsNat [Nat.digitChar (D % 10)] = D % 10 := by
      simp [digitsNat, (digitChar_mod_ten D).2]
    rw [h1, pow_succ, Nat.mul_comm (10 ^ P) 10, Nat.mod_mul]
    ring


/-- The digit loop of `Nat.toDigits` yields digits that write the number. -/
theorem toDigitsCore_spec (fuel n : Nat) (ds : List Char) (hfuel : n < fuel)
    (hds : ∀ c ∈ ds, c.isDigit = true) :
    (∀ c ∈ Nat.toDigitsCore 10 fuel n ds, c.isDigit = true) ∧
    digitsNat (Nat.toDigitsCore 10 fuel n ds) = n * 10 ^ ds.length + digitsNat ds := by
  induction fuel generalizing n ds with
  | zero => omega
  | succ fuel ih =>
    have hcons : ∀ c ∈ Nat.digitChar (n % 10) :: ds, c.isDigit = true := by
      intro c hc
      rcases List.mem_cons.1 hc with h | h
      · rw [h]; exact (digitChar_mod_ten n).1
      · exact hds c h
    have hval : digitsNat (Nat.digitChar (n % 10) :: ds)
        = n % 10 * 10 ^ ds.length + digitsNat ds := by
      rw [show Nat.digitChar (n % 10) :: ds = [Nat.digitChar (n % 10)] ++ ds from rfl,
        digitsNat_append]
      simp [digitsNat, (digitChar_mod_ten n).2]
    simp only [Nat.toDigitsCore]
    split
    · rename_i h
      refine ⟨hcons, ?_⟩
      rw [hval]
      have : n % 10 = n := Nat.mod_eq_of_lt (by omega)
      rw [this]
    · rename_i h
      obtain ⟨h1, h2⟩ := ih (n / 10) (Nat.digitChar (n % 10) :: ds) (by omega) hcons
      refine ⟨h1, ?_⟩
      rw [h2, hval, List.length_cons, pow_succ]
      have e : n * 10 ^ ds.length = (10 * (n / 10) + n % 10) * 10 ^ ds.length := by
        rw [Nat.div_add_mod n 10]
      rw [e]
      ring

/-- The decimal digits of a natural number are digits and write it. -/
theorem toDigits_spec (n : Nat) :
    (∀ c ∈ Nat.toDigits 10 n, c.isDigit = true) ∧ digitsNat (Nat.toDigits 10 n) = n := by
  have := toDigitsCore_spec (n + 1) n [] (by omega) (by simp)
  simpa [Nat.toDigits, digitsNat] using this

/-- A run of zeros writes zero. -/
theorem digitsNat_replicate_zero (z : Nat) : digitsNat (List.replicate z '0') = 0 := by
  induction z with
  | zero => rfl
  | succ z ih =>
    rw [List.replicate_succ, show ('0' :: List.replicate z '0') = ['0'] ++ List.replicate z '0'
      from rfl, digitsNat_append, ih]
    simp [digitsNat, digitValue]

/-- A text is its stripped part followed by the zeros that were stripped. -/
theorem stripZeros_append (l : List Char) :
    ∃ z, l = stripZeros l ++ List.replicate z '0' := by
  refine ⟨(l.reverse.takeWhile (fun c => decide (c = '0'))).length, ?_⟩
  have h1 : l.reverse = l.reverse.takeWhile (fun c => decide (c = '0'))
      ++ l.reverse.dropWhile (fun c => decide (c = '0')) :=
    (List.takeWhile_append_dropWhile _ _).symm
  have h2 : l.reverse.takeWhile (fun c => decide (c = '0'))
      = List.replicate (l.reverse.takeWhile (fun c => decide (c = '0'))).length '0' := by
    rw [List.eq_replicate_iff]
    refine ⟨rfl, ?_⟩
    intro b hb
    have := List.mem_takeWhile_imp hb
    simpa using this
  have h3 : l = (l.reverse.dropWhile (fun c => decide (c = '0'))).reverse
      ++ (l.reverse.takeWhile (fun c => decide (c = '0'))).reverse := by
    rw [← List.reverse_append, ← h1, List.reverse_reverse]
  unfold stripZeros
  conv_lhs => rw [h3]
  congr 1
  conv_lhs => rw [h2]
  rw [List.reverse_replicate]

/-- Cutting at the first `c` when `c` does not occur before it. -/
theorem cutAt_append (c : Char) (l r : List Char) (h : c ∉ l) :
    cutAt c (l ++ c :: r) = (l, c :: r) := by
  induction l with
  | nil => simp [cutAt]
  | cons x xs ih =>
    have hx : x ≠ c := fun e => h (by rw [e]; exact List.mem_cons_self _ _)
    have hxs : c ∉ xs := fun e => h (List.mem_cons_of_mem _ e)
    simp [cutAt, hx, ih hxs]

/-- Cutting at `c` when `c` does not occur. -/
theorem cutAt_none (c : Char) (l : List Char) (h : c ∉ l) : cutAt c l = (l, []) := by
  induction l with
  | nil => simp [cutAt]
  | cons x xs ih =>
    have hx : x ≠ c := fun e => h (by rw [e]; exact List.mem_cons_self _ _)
    have hxs : c ∉ xs := fun e => h (List.mem_cons_of_mem _ e)
    simp [cutAt, hx, ih hxs]

/-- A natural number has at least one decimal digit. -/
theorem toDigits_ne_nil (n : Nat) : Nat.toDigits 10 n ≠ [] := by
  intro h
  have hv := (toDigits_spec n).2
  rw [h] at hv
  have h0 : n = 0 := by simpa [digitsNat] using hv.symm
  rw [h0] at h
  revert h
  decide

/-- The exponent suffix of style `e` reads back as the exponent. -/
theorem readExponent_expPart (X : Int) : readExponent (expPart X) = some X := by
  obtain ⟨hdig, hval⟩ := toDigits_spec X.natAbs
  have hne := toDigits_ne_nil X.natAbs
  have hr : readDigits (Nat.toDigits 10 X.natAbs) 0 = some X.natAbs := by
    rw [readDigits_eq _ _ hdig, hval]; simp
  have hr0 : readDigits ('0' :: Nat.toDigits 10 X.natAbs) 0 = some X.natAbs := by
    have : ('0' : Char).isDigit = true := by decide
    simp only [readDigits, this, if_true]
    rw [show 10 * 0 + digitValue '0' = 0 by decide]
    exact hr
  unfold expPart
  simp only
  by_cases hx : X < 0
  · by_cases ha : X.natAbs < 10
    · simp [readExponent, hx, ha, hr0, abs_of_neg hx]
    · simp [readExponent, hx, ha, hr, hne, abs_of_neg hx]
  · have hX : (X.natAbs : Int) = X := by omega
    by_cases ha : X.natAbs < 10
    · simp [readExponent, hx, ha, hr0, hX]
    · simp [readExponent, hx, ha, hr, hne, hX]


/-- A mantissa `a[.b]` with the trailing zeros of `b` stripped, followed by an exponent
suffix that reads as `E0`, denotes `digits(a ++ b) * 10^(E0 - |b|)`. -/
theorem readUnsigned_mantissa (a b ex : List Char) (E0 : Int)
    (ha : ∀ c ∈ a, c.isDigit = true) (hb : ∀ c ∈ b, c.isDigit = true) (hane : a ≠ [])
    (hex : ex = [] ∨ ∃ r, ex = 'e' :: r) (hE : readExponent ex = some E0) :
    ∃ (N : Nat) (E : Int),
      readUnsigned (a ++ fracPart b ++ ex) = some (N, E) ∧
      (N : ℚ) * (10 : ℚ) ^ E = (digitsNat (a ++ b) : ℚ) * (10 : ℚ) ^ (E0 - b.length) := by
  obtain ⟨z, hz⟩ := stripZeros_append b
  have hsb : ∀ c ∈ stripZeros b, c.isDigit = true := fun c hc => hb c (by
    rw [hz]; exact List.mem_append_left _ hc)
  have hdot_a : '.' ∉ a := fun h => by have := ha _ h; revert this; decide
  have he_a : 'e' ∉ a := fun h => by have := ha _ h; revert this; decide
  have he_s : 'e' ∉ stripZeros b := fun h => by have := hsb _ h; revert this; decide
  have he_mant : 'e' ∉ a ++ fracPart b := by
    intro h
    rcases List.mem_append.1 h with h | h
    · exact he_a h
    · unfold fracPart at h
      split at h
      · simp at h
      · rcases List.mem_cons.1 h with h | h
        · revert h; decide
        · exact he_s h
  have hcut : cutAt 'e' (a ++ fracPart b ++ ex) = (a ++ fracPart b, ex) := by
    rcases hex with h | ⟨r, h⟩
    · rw [h, List.append_nil]; exact cutAt_none _ _ he_mant
    · rw [h]; exact cutAt_append _ _ _ he_mant
  have hcut2 : cutAt '.' (a ++ fracPart b)
      = (a, if stripZeros b = [] then [] else '.' :: stripZeros b) := by
    unfold fracPart
    split
    · rw [List.append_nil]; exact cutAt_none _ _ hdot_a
    · exact cutAt_append _ _ _ hdot_a
  have htail : (if stripZeros b = [] then [] else '.' :: stripZeros b).tail = stripZeros b := by
    split
    · rename_i h; rw [h]; rfl
    · rfl
  have hread : readDigits (a ++ stripZeros b) 0 = some (digitsNat (a ++ stripZeros b)) := by
    rw [readDigits_eq]
    · simp
    · intro c hc
      rcases List.mem_append.1 hc with h | h
      · exact ha c h
      · exact hsb c h
  refine ⟨digitsNat (a ++ stripZeros b), E0 - (stripZeros b).length, ?_, ?_⟩
  · unfold readUnsigned
    simp only [hcut, hcut2, htail, hread, hE, if_neg hane]
  · have hlen : (b.length : Int) = (stripZeros b).length + z := by
      conv_lhs => rw [hz]
      simp
    have hval : digitsNat (a ++ b) = digitsNat (a ++ stripZeros b) * 10 ^ z := by
      conv_lhs => rw [hz, ← List.append_assoc, digitsNat_append, digitsNat_replicate_zero]
      simp
    rw [hval, hlen]
    push_cast
    rw [mul_assoc, ← zpow_natCast, ← zpow_add₀ (by norm_num : (10 : ℚ) ≠ 0)]
    congr 2
    ring


/-- A text that begins with a non-empty run of digits begins with a digit. -/
theorem head_isDigit (a t : List Char) (ha : ∀ c ∈ a, c.isDigit = true) (hane : a ≠ []) :
    ∃ c rest, a ++ t = c :: rest ∧ c.isDigit = true := by
  obtain ⟨c, as, rfl⟩ := List.exists_cons_of_ne_nil hane
  exact ⟨c, as ++ t, rfl, ha c (List.mem_cons_self _ _)⟩

/-- The layout of the `P` digits of `D` with exponent `X` denotes `D * 10^(X-P+1)`. -/
theorem readUnsigned_layoutG (P D : Nat) (X : Int) (hP : 0 < P) (hD : D < 10 ^ P) :
    (∃ (N : Nat) (E : Int),
      readUnsigned (layoutG (digitsFixed P D) X P) = some (N, E) ∧
      (N : ℚ) * (10 : ℚ) ^ E = (D : ℚ) * (10 : ℚ) ^ (X - P + 1)) ∧
    (∃ c rest, layoutG (digitsFixed P D) X P = c :: rest ∧ c.isDigit = true) := by
  have hlen := digitsFixed_length P D
  have hdig := digitsFixed_isDigit P D
  have hval : digitsNat (digitsFixed P D) = D := by
    rw [digitsNat_digitsFixed, Nat.mod_eq_of_lt hD]
  unfold layoutG
  split
  · rename_i hX
    split
    · rename_i hX0
      -- style f, X ≥ 0
      have hk : X.toNat + 1 ≤ P := by omega
      have ha : ∀ c ∈ (digitsFixed P D).take (X.toNat + 1), c.isDigit = true :=
        fun c hc => hdig c (List.mem_of_mem_take hc)
      have hb : ∀ c ∈ (digitsFixed P D).drop (X.toNat + 1), c.isDigit = true :=
        fun c hc => hdig c (List.mem_of_mem_drop hc)
      have hane : (digitsFixed P D).take (X.toNat + 1) ≠ [] := by
        intro h
        have := congrArg List.length h
        simp [hlen] at this
        omega
      obtain ⟨N, E, h1, h2⟩ := readUnsigned_mantissa _ _ [] 0 ha hb hane (Or.inl rfl) rfl
      rw [List.append_nil] at h1
      refine ⟨⟨N, E, h1, ?_⟩, head_isDigit _ _ ha hane⟩
      rw [h2, List.take_append_drop, hval]
      congr 2
      simp [hlen]
      omega
    · rename_i hX0
      -- style f, X < 0
      have ha : ∀ c ∈ ['0'], c.isDigit = true := by decide
      have hb : ∀ c ∈ List.replicate ((-X).toNat - 1) '0' ++ digitsFixed P D,
          c.isDigit = true := by
        intro c hc
        rcases List.mem_append.1 hc with h | h
        · rw [(List.mem_replicate.1 h).2]; decide
        · exact hdig c h
      obtain ⟨N, E, h1, h2⟩ := readUnsigned_mantissa ['0'] _ [] 0 ha hb (by simp)
        (Or.inl rfl) rfl
      rw [List.append_nil] at h1
      refine ⟨⟨N, E, h1, ?_⟩, ⟨'0', _, rfl, by decide⟩⟩
      rw [h2]
      have hv : digitsNat (['0'] ++ (List.replicate ((-X).toNat - 1) '0' ++ digitsFixed P D))
          = D := by
        rw [show ['0'] ++ (List.replicate ((-X).toNat - 1) '0' ++ digitsFixed P D)
          = List.replicate ((-X).toNat - 1 + 1) '0' ++ digitsFixed P D by
            rw [List.replicate_succ]; rfl,
          digitsNat_append, digitsNat_replicate_zero, hval]
        simp
      rw [hv]
      congr 2
      simp [hlen]
      omega
  · rename_i hX
    -- style e
    have ha : ∀ c ∈ (digitsFixed P D).take 1, c.isDigit = true :=
      fun c hc => hdig c (List.mem_of_mem_take hc)
    have hb : ∀ c ∈ (digitsFixed P D).drop 1, c.isDigit = true :=
      fun c hc => hdig c (List.mem_of_mem_drop hc)
    have hane : (digitsFixed P D).take 1 ≠ [] := by
      intro h
      have := congrArg List.length h
      simp [hlen] at this
      omega
    obtain ⟨N, E, h1, h2⟩ := readUnsigned_mantissa _ _ (expPart X) X ha hb hane
      (Or.inr ⟨_, rfl⟩) (readExponent_expPart X)
    refine ⟨⟨N, E, h1, ?_⟩, ?_⟩
    · rw [h2, List.take_append_drop, hval]
      congr 2
      simp [hlen]
      omega
    · rw [List.append_assoc]
      exact head_isDigit _ _ ha hane

/-- A `-` before a numeral that begins with a digit only sets the sign. -/
theorem readDecimal_sign (neg : Bool) (c : Char) (rest : List Char) (hc : c.isDigit = true) :
    readDecimal ((if neg then ['-'] else []) ++ c :: rest)
      = (readUnsigned (c :: rest)).map (fun r => (neg, r.1, r.2)) := by
  have hne : c ≠ '-' := fun h => by rw [h] at hc; revert hc; decide
  cases neg
  · simp only [Bool.false_eq_true, if_false, List.nil_append]
    unfold readDecimal
    split
    · rename_i h
      exact absurd (List.cons.inj h).1 hne
    · rfl
  · simp [readDecimal]


/-- A character of a fraction part is the point or a character of the digits given. -/
theorem mem_fracPart (c : Char) (cs : List Char) (h : c ∈ fracPart cs) : c = '.' ∨ c ∈ cs := by
  unfold fracPart at h
  split at h
  · simp at h
  · rcases List.mem_cons.1 h with h1 | h1
    · exact Or.inl h1
    · obtain ⟨z, hz⟩ := stripZeros_append cs
      right
      rw [hz]
      exact List.mem_append_left _ h1

/-- The layout is in style `e`, recognisable by the letter `e`, exactly when the decimal
exponent is below -4 or not below the precision. -/
theorem layoutG_style (ds : List Char) (X : Int) (P : Nat)
    (hds : ∀ c ∈ ds, c.isDigit = true) :
    'e' ∈ layoutG ds X P ↔ (X < -4 ∨ (P : Int) ≤ X) := by
  have hnd : 'e' ∉ ds := fun h => by have := hds _ h; revert this; decide
  have hfrac : ∀ cs : List Char, 'e' ∉ cs → 'e' ∉ fracPart cs := by
    intro cs hcs h
    rcases mem_fracPart _ _ h with h1 | h1
    · revert h1; decide
    · exact hcs h1
  unfold layoutG
  split
  · rename_i hX
    constructor
    · intro h
      exfalso
      split at h
      · rcases List.mem_append.1 h with h1 | h1
        · exact hnd (List.mem_of_mem_take h1)
        · exact hfrac _ (fun h2 => hnd (List.mem_of_mem_drop h2)) h1
      · rcases List.mem_cons.1 h with h1 | h1
        · revert h1; decide
        · refine hfrac _ ?_ h1
          intro h2
          rcases List.mem_append.1 h2 with h3 | h3
          · have := (List.mem_replicate.1 h3).2
            revert this; decide
          · exact hnd h3
    · intro h
      omega
  · rename_i hX
    constructor
    · intro _
      omega
    · intro _
      apply List.mem_append_right
      unfold expPart
      exact List.mem_cons_self _ _

/-- The text of a positive value denotes the value rounded to `P` significant digits. -/
theorem printGPos_denotes (num den P : Nat) (neg : Bool) (hn : 0 < num) (hd : 0 < den)
    (hP : 0 < P) :
    ∃ (D : Nat) (X : Int), 10 ^ (P - 1) ≤ D ∧ D < 10 ^ P ∧
      |(num : ℚ) / den - (D : ℚ) * (10 : ℚ) ^ (X - P + 1)| * 2 ≤ (10 : ℚ) ^ (X - P + 1) ∧
      (|(num : ℚ) / den - (D : ℚ) * (10 : ℚ) ^ (X - P + 1)| * 2 = (10 : ℚ) ^ (X - P + 1) →
        D % 2 = 0) ∧
      decimalValue ((if neg then ['-'] else []) ++ printGPos num den P)
        = some ((if neg then -1 else 1) * ((D : ℚ) * (10 : ℚ) ^ (X - P + 1))) ∧
      ('e' ∈ (if neg then ['-'] else []) ++ printGPos num den P ↔ (X < -4 ∨ (P : Int) ≤ X)) := by
  obtain ⟨D, X, h1, h2, h3, h4, h5⟩ := printGPos_rounds num den P hn hd hP
  obtain ⟨⟨N, E, hr, hv⟩, c, rest, hc, hcd⟩ := readUnsigned_layoutG P D X hP h2
  refine ⟨D, X, h1, h2, h3, h4, ?_, ?_⟩
  · rw [h5]
    unfold decimalValue
    rw [hc, readDecimal_sign neg c rest hcd, ← hc, hr]
    simp only [Option.map_some']
    rw [mul_assoc, hv]
  · rw [h5, ← layoutG_style _ X P (digitsFixed_isDigit P D)]
    cases neg
    · simp
    · simp

/-- The text of a finite non-zero `double` denotes its value rounded to the precision,
and is in style `e` exactly when the decimal exponent is below -4 or not below the
precision. -/
theorem printDouble_denotes (precision m : Nat) (e : Int) (neg : Bool) (hm : m ≠ 0)
    (hP : 0 < precision) :
    ∃ (D : Nat) (X : Int), 10 ^ (precision - 1) ≤ D ∧ D < 10 ^ precision ∧
      |(m : ℚ) * (2 : ℚ) ^ e - (D : ℚ) * (10 : ℚ) ^ (X - precision + 1)| * 2
        ≤ (10 : ℚ) ^ (X - precision + 1) ∧
      (|(m : ℚ) * (2 : ℚ) ^ e - (D : ℚ) * (10 : ℚ) ^ (X - precision + 1)| * 2
        = (10 : ℚ) ^ (X - precision + 1) → D % 2 = 0) ∧
      decimalValue (printDouble precision (Double.finite neg m e)).toList
        = some ((if neg then -1 else 1) * ((D : ℚ) * (10 : ℚ) ^ (X - precision + 1))) ∧
      ('e' ∈ (printDouble precision (Double.finite neg m e)).toList
        ↔ (X < -4 ∨ (precision : Int) ≤ X)) := by
  have hmpos : 0 < m := Nat.pos_of_ne_zero hm
  have hPne : precision ≠ 0 := by omega
  by_cases he : 0 ≤ e
  · have hv : (m : ℚ) * (2 : ℚ) ^ e = ((m * 2 ^ e.toNat : Nat) : ℚ) / ((1 : Nat) : ℚ) := by
      conv_lhs => rw [← Int.toNat_of_nonneg he, zpow_natCast]
      push_cast
      simp
    have := printGPos_denotes (m * 2 ^ e.toNat) 1 precision neg
      (Nat.mul_pos hmpos (by positivity)) (by norm_num) hP
    rw [hv]
    simpa [printDouble, hm, hPne, he] using this
  · have hneg : 0 ≤ -e := by omega
    have hv : (m : ℚ) * (2 : ℚ) ^ e = ((m : Nat) : ℚ) / ((2 ^ (-e).toNat : Nat) : ℚ) := by
      conv_lhs => rw [← neg_neg e, zpow_neg, ← Int.toNat_of_nonneg hneg, zpow_natCast]
      push_cast
      rw [div_eq_mul_inv]
    have := printGPos_denotes m (2 ^ (-e).toNat) precision neg hmpos (by positivity) hP
    rw [hv]
    simpa [printDouble, hm, hPne, he] using this

/-! ## Renderings contain no line break -/

/-- A decimal digit character is not a line break. -/
theorem digitChar_mod_ten_ne_newline (n : Nat) : Nat.digitChar (n % 10) ≠ '\n' := by
  have h : n % 10 < 10 := Nat.mod_lt n (by decide)
  generalize n % 10 = k at h
  interval_cases k <;> decide

/-- The digit loop of `Nat.toDigits` adds no line break. -/
theorem toDigitsCore_no_newline (fuel n : Nat) (ds : List Char) (hds : '\n' ∉ ds) :
    '\n' ∉ Nat.toDigitsCore 10 fuel n ds := by
  induction fuel generalizing n ds with
  | zero => simpa [Nat.toDigitsCore] using hds
  | succ fuel ih =>
    have hcons : '\n' ∉ Nat.digitChar (n % 10) :: ds := by
      intro hmem
      rcases List.mem_cons.1 hmem with h | h
      · exact digitChar_mod_ten_ne_newline n h.symm
      · exact hds h
    simp only [Nat.toDigitsCore]
    split
    · exact hcons
    · exact ih _ _ hcons

/-- The decimal digits of a natural number contain no line break. -/
theorem toDigits_no_newline (n : Nat) : '\n' ∉ Nat.toDigits 10 n :=
  toDigitsCore_no_newline _ _ _ (by simp)

/-- The decimal rendering of an `int` contains no line break. -/
theorem toString_int_no_newline (i : Int) : '\n' ∉ (toString i).toList := by
  cases i with
  | ofNat m => exact toDigits_no_newline m
  | negSucc m =>
    show '\n' ∉ ("-" ++ (Nat.succ m).repr).toList
    intro h
    simp only [String.toList, String.data_append, List.mem_append] at h
    rcases h with h | h
    · revert h; decide
    · exact toDigits_no_newline _ h

/-- Stripping zeros keeps only characters that were there. -/
theorem mem_of_mem_stripZeros (c : Char) (cs : List Char) (h : c ∈ stripZeros cs) : c ∈ cs := by
  unfold stripZeros at h
  have h1 := List.mem_reverse.1 h
  have h2 := (List.dropWhile_sublist (fun c => decide (c = '0'))).subset h1
  exact List.mem_reverse.1 h2

/-- A fraction part adds at most the decimal point. -/
theorem fracPart_no_newline (cs : List Char) (h : '\n' ∉ cs) : '\n' ∉ fracPart cs := by
  unfold fracPart
  split
  · simp
  · intro hmem
    rcases List.mem_cons.1 hmem with h1 | h1
    · revert h1; decide
    · exact h (mem_of_mem_stripZeros _ _ h1)

/-- An exponent suffix contains no line break. -/
theorem expPart_no_newline (X : Int) : '\n' ∉ expPart X := by
  unfold expPart
  intro hmem
  simp only [List.mem_cons] at hmem
  rcases hmem with h | h | h
  · revert h; decide
  · split at h
    · revert h; decide
    · revert h; decide
  · split at h
    · rcases List.mem_cons.1 h with h1 | h1
      · revert h1; decide
      · exact toDigits_no_newline _ h1
    · exact toDigits_no_newline _ h

/-- The layout adds no line break to break-free digits. -/
theorem layoutG_no_newline (ds : List Char) (X : Int) (P : Nat) (hds : '\n' ∉ ds) :
    '\n' ∉ layoutG ds X P := by
  unfold layoutG
  split
  · split
    · intro hmem
      rcases List.mem_append.1 hmem with h | h
      · exact hds (List.mem_of_mem_take h)
      · exact fracPart_no_newline _ (fun h1 => hds (List.mem_of_mem_drop h1)) h
    · intro hmem
      rcases List.mem_cons.1 hmem with h | h
      · revert h; decide
      · refine fracPart_no_newline _ ?_ h
        intro h1
        rcases List.mem_append.1 h1 with h2 | h2
        · have := (List.mem_replicate.1 h2).2
          revert this; decide
        · exact hds h2
  · intro hmem
    rcases List.mem_append.1 hmem with h | h
    · rcases List.mem_append.1 h with h1 | h1
      · exact hds (List.mem_of_mem_take h1)
      · exact fracPart_no_newline _ (fun h2 => hds (List.mem_of_mem_drop h2)) h1
    · exact expPart_no_newline _ h

/-- The `%g` conversion of a positive value contains no line break. -/
theorem printGPos_no_newline (num den P : Nat) : '\n' ∉ printGPos num den P :=
  layoutG_no_newline _ _ _ (fun h => by
    have := digitsFixed_isDigit _ _ _ h
    revert this
    decide)

/-- The rendering of a `double` contains no line break. -/
theorem printDouble_no_newline (precision : Nat) (x : Double) :
    '\n' ∉ (printDouble precision x).toList := by
  cases x with
  | nan neg =>
    cases neg
    · show '\n' ∉ "nan".toList
      decide
    · show '\n' ∉ "-nan".toList
      decide
  | inf neg =>
    cases neg
    · show '\n' ∉ "inf".toList
      decide
    · show '\n' ∉ "-inf".toList
      decide
  | finite neg m e =>
    unfold printDouble
    simp only [String.toList]
    intro hmem
    rcases List.mem_append.1 hmem with h | h
    · split at h
      · revert h; decide
      · simp at h
    · split at h
      · revert h; decide
      · split at h
        · exact printGPos_no_newline _ _ _ h
        · exact printGPos_no_newline _ _ _ h

/-- Line breaks of a concatenation: those of the parts. -/
theorem count_newline_append (s t : String) :
    (s ++ t).toList.count '\n' = s.toList.count '\n' + t.toList.count '\n' := by
  simp [String.toList, String.data_append, List.count_append]

/-- The decimal rendering of an `int` has no line break to count. -/
theorem count_newline_int (i : Int) : (toString i).toList.count '\n' = 0 :=
  List.count_eq_zero_of_not_mem (toString_int_no_newline i)

/-- The rendering of a `double` has no line break to count. -/
theorem count_newline_double (precision : Nat) (x : Double) :
    (printDouble precision x).toList.count '\n' = 0 :=
  List.count_eq_zero_of_not_mem (printDouble_no_newline precision x)

/-! ## Error translator: theorems -/

/-- C4: `error_handler` returns normally exactly on `EPHIDGET_OK`, and then leaves the
state untouched. On any other code it throws, after one description lookup for that
code: when the lookup succeeds the text is the prefix, the description, a blank and the
decimal code in parentheses; when the lookup fails the text carries the note "unable to
get error description", the reason (the lookup failure with the lookup's own code) and
then, in the closing parentheses, still the original code. -/
theorem error_handler_spec (sdk : Sdk) (code : ReturnCode) (w : World) :
    ((error_handler sdk code w).1 = Except.ok () ↔ code = EPHIDGET_OK) ∧
    (code = EPHIDGET_OK → (error_handler sdk code w).2 = w) ∧
    (code ≠ EPHIDGET_OK →
      (error_handler sdk code w).2 = w.call (Call.Phidget_getErrorDescription code)) ∧
    (code ≠ EPHIDGET_OK → (sdk.Phidget_getErrorDescription code).1 = EPHIDGET_OK →
      (error_handler sdk code w).1 = Except.error
        ("phidget::error_handler: " ++ (sdk.Phidget_getErrorDescription code).2 ++ " "
          ++ "(" ++ toString code ++ ")")) ∧
    (code ≠ EPHIDGET_OK → (sdk.Phidget_getErrorDescription code).1 ≠ EPHIDGET_OK →
      (error_handler sdk code w).1 = Except.error
        ("phidget::error_handler: " ++ "unable to get error description ("
          ++ ("phidget::get_error_description: error code "
            ++ toString (sdk.Phidget_getErrorDescription code).1) ++ ") "
          ++ "(" ++ toString code ++ ")")) := by
  refine ⟨?_, ?_, ?_, ?_, ?_⟩
  · by_cases h : code = EPHIDGET_OK
    · simp [error_handler, h]
    · simp [error_handler, h]
  · intro h
    simp [error_handler, h]
  · intro h
    by_cases hd : (sdk.Phidget_getErrorDescription code).1 = EPHIDGET_OK
    · simp [error_handler, get_error_description, h, hd]
    · simp [error_handler, get_error_description, h, hd]
  · intro h hd
    simp [error_handler, get_error_description, h, hd]
  · intro h hd
    simp [error_handler, get_error_description, h, hd]

/-- C4, evaluated: code 3 with description "Timed Out" gives the text with both, and
code 3 with a lookup failing with code 5 gives the note, the reason and code 3. -/
theorem error_handler_spec_witness :
    (error_handler mockOk 3 World.init).1
      = Except.error "phidget::error_handler: Timed Out (3)" ∧
    (error_handler mockDescribeFails 3 World.init).1
      = Except.error ("phidget::error_handler: unable to get error description "
          ++ "(phidget::get_error_description: error code 5) (3)") :=
  ⟨(error_handler_spec mockOk 3 World.init).2.2.2.1 (by decide) (by decide),
   (error_handler_spec mockDescribeFails 3 World.init).2.2.2.2 (by decide) (by decide)⟩

/-! ## Spatial session: theorems -/

/-- The trace a construction leaves, by the first failing step: the steps up to and
including the failing one, then the description lookup of `error_handler`. -/
theorem Spatial.new_trace (sdk : Sdk) (w : World) :
    (Spatial.new sdk w).2.trace = w.trace ++
      (if sdk.PhidgetSpatial_create.1 ≠ EPHIDGET_OK then
        [Call.PhidgetSpatial_create,
         Call.Phidget_getErrorDescription sdk.PhidgetSpatial_create.1]
      else if sdk.Phidget_setOnAttachHandler sdk.PhidgetSpatial_create.2 ≠ EPHIDGET_OK then
        [Call.PhidgetSpatial_create,
         Call.Phidget_setOnAttachHandler sdk.PhidgetSpatial_create.2,
         Call.Phidget_getErrorDescription
           (sdk.Phidget_setOnAttachHandler sdk.PhidgetSpatial_create.2)]
      else if sdk.Phidget_setOnDetachHandler sdk.PhidgetSpatial_create.2 ≠ EPHIDGET_OK then
        [Call.PhidgetSpatial_create,
         Call.Phidget_setOnAttachHandler sdk.PhidgetSpatial_create.2,
         Call.Phidget_setOnDetachHandler sdk.PhidgetSpatial_create.2,
         Call.Phidget_getErrorDescription
           (sdk.Phidget_setOnDetachHandler sdk.PhidgetSpatial_create.2)]
      else if sdk.Phidget_setOnErrorHandler sdk.PhidgetSpatial_create.2 ≠ EPHIDGET_OK then
        [Call.PhidgetSpatial_create,
         Call.Phidget_setOnAttachHandler sdk.PhidgetSpatial_create.2,
         Call.Phidget_setOnDetachHandler sdk.PhidgetSpatial_create.2,
         Call.Phidget_setOnErrorHandler sdk.PhidgetSpatial_create.2,
         Call.Phidget_getErrorDescription
           (sdk.Phidget_setOnErrorHandler sdk.PhidgetSpatial_create.2)]
      else if sdk.PhidgetSpatial_setOnSpatialDataHandler sdk.PhidgetSpatial_create.2
          ≠ EPHIDGET_OK then
        [Call.PhidgetSpatial_create,
         Call.Phidget_setOnAttachHandler sdk.PhidgetSpatial_create.2,
         Call.Phidget_setOnDetachHandler sdk.PhidgetSpatial_create.2,
         Call.Phidget_setOnErrorHandler sdk.PhidgetSpatial_create.2,
         Call.PhidgetSpatial_setOnSpatialDataHandler sdk.PhidgetSpatial_create.2,
         Call.Phidget_getErrorDescription
           (sdk.PhidgetSpatial_setOnSpatialDataHandler sdk.PhidgetSpatial_create.2)]
      else
        [Call.PhidgetSpatial_create,
         Call.Phidget_setOnAttachHandler sdk.PhidgetSpatial_create.2,
         Call.Phidget_setOnDetachHandler sdk.PhidgetSpatial_create.2,
         Call.Phidget_setOnErrorHandler sdk.PhidgetSpatial_create.2,
         Call.PhidgetSpatial_setOnSpatialDataHandler sdk.PhidgetSpatial_create.2]) := by
  by_cases h1 : sdk.PhidgetSpatial_create.1 = EPHIDGET_OK
  · by_cases h2 : sdk.Phidget_setOnAttachHandler sdk.PhidgetSpatial_create.2 = EPHIDGET_OK
    · by_cases h3 : sdk.Phidget_setOnDetachHandler sdk.PhidgetSpatial_create.2 = EPHIDGET_OK
      · by_cases h4 : sdk.Phidget_setOnErrorHandler sdk.PhidgetSpatial_create.2 = EPHIDGET_OK
        · by_cases h5 : sdk.PhidgetSpatial_setOnSpatialDataHandler sdk.PhidgetSpatial_create.2
              = EPHIDGET_OK
          · simp [Spatial.new, initChannel, error_handler, get_error_description, World.call,
              World.err, HandleWrapper.as_handle, h1, h2, h3, h4, h5]
          · simp [Spatial.new, initChannel, error_handler, get_error_description, World.call,
              World.err, HandleWrapper.as_handle, h1, h2, h3, h4, h5]
            split <;> rfl
        · simp [Spatial.new, initChannel, error_handler, get_error_description, World.call,
            World.err, HandleWrapper.as_handle, h1, h2, h3, h4]
          split <;> rfl
      · simp [Spatial.new, initChannel, error_handler, get_error_description, World.call,
          World.err, HandleWrapper.as_handle, h1, h2, h3]
        split <;> rfl
    · simp [Spatial.new, initChannel, error_handler, get_error_description, World.call,
        World.err, HandleWrapper.as_handle, h1, h2]
      split <;> rfl
  · simp [Spatial.new, initChannel, error_handler, get_error_description, World.call,
      World.err, HandleWrapper.as_handle, h1]
    split <;> rfl

/-- A construction succeeds exactly when all five steps return `EPHIDGET_OK`. -/
theorem Spatial.new_ok_iff (sdk : Sdk) (w : World) :
    (∃ s, (Spatial.new sdk w).1 = Except.ok s) ↔
      (sdk.PhidgetSpatial_create.1 = EPHIDGET_OK ∧
       sdk.Phidget_setOnAttachHandler sdk.PhidgetSpatial_create.2 = EPHIDGET_OK ∧
       sdk.Phidget_setOnDetachHandler sdk.PhidgetSpatial_create.2 = EPHIDGET_OK ∧
       sdk.Phidget_setOnErrorHandler sdk.PhidgetSpatial_create.2 = EPHIDGET_OK ∧
       sdk.PhidgetSpatial_setOnSpatialDataHandler sdk.PhidgetSpatial_create.2
        = EPHIDGET_OK) := by
  by_cases h1 : sdk.PhidgetSpatial_create.1 = EPHIDGET_OK
  · by_cases h2 : sdk.Phidget_setOnAttachHandler sdk.PhidgetSpatial_create.2 = EPHIDGET_OK
    · by_cases h3 : sdk.Phidget_setOnDetachHandler sdk.PhidgetSpatial_create.2 = EPHIDGET_OK
      · by_cases h4 : sdk.Phidget_setOnErrorHandler sdk.PhidgetSpatial_create.2 = EPHIDGET_OK
        · by_cases h5 : sdk.PhidgetSpatial_setOnSpatialDataHandler sdk.PhidgetSpatial_create.2
              = EPHIDGET_OK
          · simp [Spatial.new, initChannel, error_handler, get_error_description, World.call,
              World.err, HandleWrapper.as_handle, h1, h2, h3, h4, h5]
          · simp [Spatial.new, initChannel, error_handler, get_error_description, World.call,
              World.err, HandleWrapper.as_handle, h1, h2, h3, h4, h5]
        · simp [Spatial.new, initChannel, error_handler, get_error_description, World.call,
            World.err, HandleWrapper.as_handle, h1, h2, h3, h4]
      · simp [Spatial.new, initChannel, error_handler, get_error_description, World.call,
          World.err, HandleWrapper.as_handle, h1, h2, h3]
    · simp [Spatial.new, initChannel, error_handler, get_error_description, World.call,
        World.err, HandleWrapper.as_handle, h1, h2]
  · simp [Spatial.new, initChannel, error_handler, get_error_description, World.call,
      World.err, HandleWrapper.as_handle, h1]

/-- A constructed session holds the handle that `PhidgetSpatial_create` stored. -/
theorem Spatial.new_handle (sdk : Sdk) (w w1 : World) (s : Spatial)
    (hnew : Spatial.new sdk w = (Except.ok s, w1)) :
    s.handle.base = sdk.PhidgetSpatial_create.2 := by
  have h : (Spatial.new sdk w).1 = Except.ok s := by rw [hnew]
  unfold Spatial.new at h
  simp only at h
  split at h
  · simp at h
  · split at h
    · simp at h
    · split at h
      · simp at h
      · simp at h
        rw [← h]

/-- C1, as stated, fails: when `PhidgetSpatial_create` returns code 3 the constructor
throws after the calls `PhidgetSpatial_create` and the description lookup only; the
trace holds one create call and no `PhidgetSpatial_delete` call. -/
theorem Spatial_new_create_failure_no_delete :
    Spatial.new mockCreateFails World.init =
      (Except.error ("phidget::Spatial::Spatial: failed to create Spatial handle: "
          ++ "phidget::error_handler: Timed Out (3)"),
        ⟨[Call.PhidgetSpatial_create, Call.Phidget_getErrorDescription 3], "", "", 6⟩) ∧
    ((Spatial.new mockCreateFails World.init).2.trace.filter
      (fun c => match c with
        | Call.PhidgetSpatial_delete _ => true
        | _ => false)).length = 0 := by
  decide

/-- C1, amended: when `PhidgetSpatial_create` itself fails, the failure reaches the caller
after exactly two SDK calls, the create call and the description lookup for its code;
no handle exists, no `PhidgetSpatial_delete` call is made and nothing is written. -/
theorem Spatial_new_create_failure (sdk : Sdk) (w : World)
    (hfail : sdk.PhidgetSpatial_create.1 ≠ EPHIDGET_OK) :
    (∃ what, (Spatial.new sdk w).1 = Except.error what) ∧
    (Spatial.new sdk w).2 = { w with trace := w.trace ++
      [Call.PhidgetSpatial_create,
       Call.Phidget_getErrorDescription sdk.PhidgetSpatial_create.1] } ∧
    (∀ h, Call.PhidgetSpatial_delete h ∉
      [Call.PhidgetSpatial_create,
       Call.Phidget_getErrorDescription sdk.PhidgetSpatial_create.1]) := by
  refine ⟨?_, ?_, ?_⟩
  · simp [Spatial.new, error_handler, hfail]
  · simp [Spatial.new, error_handler, get_error_description, World.call, hfail]
    split <;> rfl
  · intro h
    simp

/-- C1, amended, evaluated on an SDK whose create call returns code 3. -/
theorem Spatial_new_create_failure_witness :
    (∃ what, (Spatial.new mockCreateFails World.init).1 = Except.error what) ∧
    (Spatial.new mockCreateFails World.init).2 = { World.init with trace := World.init.trace ++
      [Call.PhidgetSpatial_create,
       Call.Phidget_getErrorDescription mockCreateFails.PhidgetSpatial_create.1] } ∧
    (∀ h, Call.PhidgetSpatial_delete h ∉
      [Call.PhidgetSpatial_create,
       Call.Phidget_getErrorDescription mockCreateFails.PhidgetSpatial_create.1]) :=
  Spatial_new_create_failure mockCreateFails World.init (by decide)

/-- C2: for a session that was constructed successfully, the destructor appends to the
trace exactly `Phidget_close` and then `PhidgetSpatial_delete`, both on the handle that
`PhidgetSpatial_create` stored, and nothing else. This holds when `open` was never called
(state right after construction) and after `open_wait_for_attachment` with any timeout
and any return code (success, timeout or another failure). -/
theorem Spatial_destroy_close_then_delete (sdk : Sdk) (w w1 : World) (s : Spatial)
    (hnew : Spatial.new sdk w = (Except.ok s, w1)) :
    s.handle.as_handle = sdk.PhidgetSpatial_create.2 ∧
    s.handle.base = sdk.PhidgetSpatial_create.2 ∧
    (Spatial.destroy sdk s w1).2 = { w1 with trace := w1.trace ++
      [Call.Phidget_close sdk.PhidgetSpatial_create.2,
       Call.PhidgetSpatial_delete sdk.PhidgetSpatial_create.2] } ∧
    (∀ timeout_ms : Nat,
      (Spatial.destroy sdk s (Spatial.open_wait_for_attachment sdk s timeout_ms w1).2).2 =
        { (Spatial.open_wait_for_attachment sdk s timeout_ms w1).2 with
          trace := (Spatial.open_wait_for_attachment sdk s timeout_ms w1).2.trace ++
            [Call.Phidget_close sdk.PhidgetSpatial_create.2,
             Call.PhidgetSpatial_delete sdk.PhidgetSpatial_create.2] }) := by
  have hb : s.handle.base = sdk.PhidgetSpatial_create.2 := Spatial.new_handle sdk w w1 s hnew
  refine ⟨?_, hb, ?_, ?_⟩
  · simp [HandleWrapper.as_handle, hb]
  · simp [Spatial.destroy, World.call, HandleWrapper.as_handle, hb]
  · intro timeout_ms
    simp [Spatial.destroy, World.call, HandleWrapper.as_handle, hb]

/-- C2, evaluated: construct on the all-success SDK, then destroy. -/
theorem Spatial_destroy_close_then_delete_witness :
    (Spatial.destroy mockOk ⟨⟨7⟩⟩ (Spatial.new mockOk World.init).2).2.trace =
      [Call.PhidgetSpatial_create, Call.Phidget_setOnAttachHandler 7,
       Call.Phidget_setOnDetachHandler 7, Call.Phidget_setOnErrorHandler 7,
       Call.PhidgetSpatial_setOnSpatialDataHandler 7,
       Call.Phidget_close 7, Call.PhidgetSpatial_delete 7] := by
  have h := (Spatial_destroy_close_then_delete mockOk World.init
    (Spatial.new mockOk World.init).2 ⟨⟨7⟩⟩ (by decide)).2.2.1
  rw [h]
  decide

/-- C8, as stated, fails: two destructor invocations on the session with handle 7 make
two `Phidget_close` calls and two `PhidgetSpatial_delete` calls (the second pair on the
null handle that the first delete left). -/
theorem Spatial_destroy_twice_calls_twice :
    (Spatial.destroy mockOk (Spatial.destroy mockOk ⟨⟨7⟩⟩ World.init).1
        (Spatial.destroy mockOk ⟨⟨7⟩⟩ World.init).2).2.trace =
      [Call.Phidget_close 7, Call.PhidgetSpatial_delete 7,
       Call.Phidget_close 0, Call.PhidgetSpatial_delete 0] := by
  decide

/-- C8, amended: the destructor has no guard. Every invocation appends one `Phidget_close`
and one `PhidgetSpatial_delete` on the handle stored at that moment, so two invocations
append two of each, in the order close, delete, close, delete, the second pair on the
handle value the first delete left in the session. -/
theorem Spatial_destroy_twice (sdk : Sdk) (s : Spatial) (w : World) :
    (Spatial.destroy sdk s w).2.trace = w.trace ++
      [Call.Phidget_close s.handle.base, Call.PhidgetSpatial_delete s.handle.base] ∧
    (Spatial.destroy sdk (Spatial.destroy sdk s w).1 (Spatial.destroy sdk s w).2).2.trace =
      w.trace ++
      [Call.Phidget_close s.handle.base, Call.PhidgetSpatial_delete s.handle.base,
       Call.Phidget_close (sdk.PhidgetSpatial_delete s.handle.base).2,
       Call.PhidgetSpatial_delete (sdk.PhidgetSpatial_delete s.handle.base).2] := by
  simp [Spatial.destroy, World.call, HandleWrapper.as_handle]

/-- C3, as stated, fails: when `PhidgetSpatial_create` returns code 3 the calls made by
the construction are the create call followed by the description lookup of
`error_handler`, which is no initial segment of the five-step sequence. -/
theorem Spatial_new_trace_ends_with_lookup :
    (Spatial.new mockCreateFails World.init).2.trace =
      [Call.PhidgetSpatial_create, Call.Phidget_getErrorDescription 3] ∧
    ¬ ((Spatial.new mockCreateFails World.init).2.trace <+:
      [Call.PhidgetSpatial_create, Call.Phidget_setOnAttachHandler 0,
       Call.Phidget_setOnDetachHandler 0, Call.Phidget_setOnErrorHandler 0,
       Call.PhidgetSpatial_setOnSpatialDataHandler 0]) := by
  decide

/-- C3, amended: the calls made by a construction are the steps create, set-on-attach,
set-on-detach, set-on-error, set-on-spatial-data, in this order, up to and including the
first one that returns a non-success code (all five when none fails), followed, when a
step failed, by exactly one description lookup for the failing code and by nothing
else. The construction succeeds exactly when all five return success, and an
`open_wait_for_attachment` on the constructed session is recorded after all five. -/
theorem Spatial_new_call_order (sdk : Sdk) (w : World) :
    (Spatial.new sdk w).2.trace = w.trace ++
      (if sdk.PhidgetSpatial_create.1 ≠ EPHIDGET_OK then
        [Call.PhidgetSpatial_create,
         Call.Phidget_getErrorDescription sdk.PhidgetSpatial_create.1]
      else if sdk.Phidget_setOnAttachHandler sdk.PhidgetSpatial_create.2 ≠ EPHIDGET_OK then
        [Call.PhidgetSpatial_create,
         Call.Phidget_setOnAttachHandler sdk.PhidgetSpatial_create.2,
         Call.Phidget_getErrorDescription
           (sdk.Phidget_setOnAttachHandler sdk.PhidgetSpatial_create.2)]
      else if sdk.Phidget_setOnDetachHandler sdk.PhidgetSpatial_create.2 ≠ EPHIDGET_OK then
        [Call.PhidgetSpatial_create,
         Call.Phidget_setOnAttachHandler sdk.PhidgetSpatial_create.2,
         Call.Phidget_setOnDetachHandler sdk.PhidgetSpatial_create.2,
         Call.Phidget_getErrorDescription
           (sdk.Phidget_setOnDetachHandler sdk.PhidgetSpatial_create.2)]
      else if sdk.Phidget_setOnErrorHandler sdk.PhidgetSpatial_create.2 ≠ EPHIDGET_OK then
        [Call.PhidgetSpatial_create,
         Call.Phidget_setOnAttachHandler sdk.PhidgetSpatial_create.2,
         Call.Phidget_setOnDetachHandler sdk.PhidgetSpatial_create.2,
         Call.Phidget_setOnErrorHandler sdk.PhidgetSpatial_create.2,
         Call.Phidget_getErrorDescription
           (sdk.Phidget_setOnErrorHandler sdk.PhidgetSpatial_create.2)]
      else if sdk.PhidgetSpatial_setOnSpatialDataHandler sdk.PhidgetSpatial_create.2
          ≠ EPHIDGET_OK then
        [Call.PhidgetSpatial_create,
         Call.Phidget_setOnAttachHandler sdk.PhidgetSpatial_create.2,
         Call.Phidget_setOnDetachHandler sdk.PhidgetSpatial_create.2,
         Call.Phidget_setOnErrorHandler sdk.PhidgetSpatial_create.2,
         Call.PhidgetSpatial_setOnSpatialDataHandler sdk.PhidgetSpatial_create.2,
         Call.Phidget_getErrorDescription
           (sdk.PhidgetSpatial_setOnSpatialDataHandler sdk.PhidgetSpatial_create.2)]
      else
        [Call.PhidgetSpatial_create,
         Call.Phidget_setOnAttachHandler sdk.PhidgetSpatial_create.2,
         Call.Phidget_setOnDetachHandler sdk.PhidgetSpatial_create.2,
         Call.Phidget_setOnErrorHandler sdk.PhidgetSpatial_create.2,
         Call.PhidgetSpatial_setOnSpatialDataHandler sdk.PhidgetSpatial_create.2]) ∧
    ((∃ s, (Spatial.new sdk w).1 = Except.ok s) ↔
      (sdk.PhidgetSpatial_create.1 = EPHIDGET_OK ∧
       sdk.Phidget_setOnAttachHandler sdk.PhidgetSpatial_create.2 = EPHIDGET_OK ∧
       sdk.Phidget_setOnDetachHandler sdk.PhidgetSpatial_create.2 = EPHIDGET_OK ∧
       sdk.Phidget_setOnErrorHandler sdk.PhidgetSpatial_create.2 = EPHIDGET_OK ∧
       sdk.PhidgetSpatial_setOnSpatialDataHandler sdk.PhidgetSpatial_create.2
        = EPHIDGET_OK)) ∧
    (∀ (s : Spatial) (w1 : World), Spatial.new sdk w = (Except.ok s, w1) →
      ∀ timeout_ms : Nat, ∃ rest,
        (Spatial.open_wait_for_attachment sdk s timeout_ms w1).2.trace = w.trace ++
          [Call.PhidgetSpatial_create,
           Call.Phidget_setOnAttachHandler sdk.PhidgetSpatial_create.2,
           Call.Phidget_setOnDetachHandler sdk.PhidgetSpatial_create.2,
           Call.Phidget_setOnErrorHandler sdk.PhidgetSpatial_create.2,
           Call.PhidgetSpatial_setOnSpatialDataHandler sdk.PhidgetSpatial_create.2,
           Call.Phidget_openWaitForAttachment sdk.PhidgetSpatial_create.2 timeout_ms]
          ++ rest) := by
  refine ⟨Spatial.new_trace sdk w, Spatial.new_ok_iff sdk w, ?_⟩
  intro s w1 hnew timeout_ms
  have hb : s.handle.base = sdk.PhidgetSpatial_create.2 := Spatial.new_handle sdk w w1 s hnew
  have hok : ∃ s, (Spatial.new sdk w).1 = Except.ok s := ⟨s, by rw [hnew]⟩
  obtain ⟨h1, h2, h3, h4, h5⟩ := (Spatial.new_ok_iff sdk w).1 hok
  have ht : w1.trace = (Spatial.new sdk w).2.trace := by rw [hnew]
  rw [Spatial.new_trace] at ht
  simp only [h1, h2, h3, h4, h5, ne_eq, not_true_eq_false, if_false] at ht
  by_cases ho : sdk.Phidget_openWaitForAttachment sdk.PhidgetSpatial_create.2 timeout_ms
      = EPHIDGET_OK
  · refine ⟨[], ?_⟩
    simp [Spatial.open_wait_for_attachment, error_handler, World.call,
      HandleWrapper.as_handle, hb, ho, ht]
  · refine ⟨[Call.Phidget_getErrorDescription
      (sdk.Phidget_openWaitForAttachment sdk.PhidgetSpatial_create.2 timeout_ms)], ?_⟩
    simp [Spatial.open_wait_for_attachment, error_handler, get_error_description, World.call,
      HandleWrapper.as_handle, hb, ho, ht]
    split <;> rfl

/-- C3, amended, evaluated: on the all-success SDK the construction is followed by the
open call; the trace is the five steps and then `Phidget_openWaitForAttachment`. -/
theorem Spatial_new_call_order_witness :
    ∃ rest, (Spatial.open_wait_for_attachment mockOk ⟨⟨7⟩⟩ 5000
        (Spatial.new mockOk World.init).2).2.trace =
      World.init.trace ++
      [Call.PhidgetSpatial_create, Call.Phidget_setOnAttachHandler 7,
       Call.Phidget_setOnDetachHandler 7, Call.Phidget_setOnErrorHandler 7,
       Call.PhidgetSpatial_setOnSpatialDataHandler 7,
       Call.Phidget_openWaitForAttachment 7 5000] ++ rest :=
  (Spatial_new_call_order mockOk World.init).2.2 ⟨⟨7⟩⟩ (Spatial.new mockOk World.init).2
    (by decide) 5000

/-! ## Event callbacks: theorems -/

/-- C5: the code at a device with serial 1, channel 0 and hub port 3, and at the same
device with the hub port absent. The attach handler writes the hub-port clause exactly
when the port was read; the detach handler does the opposite: it drops the clause when
the port 3 was read and writes "hub port -1" when the port is absent. -/
theorem onDetachHandler_hub_port_clause_inverted :
    (onAttachHandler mockOk 7 World.init).cout = "channel 0 on device 1 hub port 3 attached\n" ∧
    (onDetachHandler mockOk 7 World.init).cout = "channel 0 on device 1 detached\n" ∧
    (onAttachHandler mockNoHubPort 7 World.init).cout = "channel 0 on device 1 attached\n" ∧
    (onDetachHandler mockNoHubPort 7 World.init).cout
      = "channel 0 on device 1 hub port -1 detached\n" := by
  decide

/-- C6, as stated, fails: when the hub port is read successfully as -1, the attach
handler writes the line without the hub-port clause, not the line with "hub port -1". -/
theorem onAttachHandler_hub_port_minus_one :
    (mockHubPortMinusOne.Phidget_getHubPort 7) = (EPHIDGET_OK, -1) ∧
    (onAttachHandler mockHubPortMinusOne 7 World.init).cout
      = "channel 0 on device 1 attached\n" ∧
    (onAttachHandler mockHubPortMinusOne 7 World.init).cout
      ≠ "channel 0 on device 1 hub port -1 attached\n" := by
  decide

/-- C6, amended: when serial `s` and channel `n` are read successfully, the attach handler
appends exactly one line to `std::cout`: "channel n on device s attached" when the
hub-port accessor fails or stores -1, and "channel n on device s hub port p attached"
when it succeeds and stores a port `p` other than -1. Either text has exactly one line
break, its last character. -/
theorem onAttachHandler_line (sdk : Sdk) (phid : Handle) (w : World)
    (hserial : (sdk.Phidget_getDeviceSerialNumber phid).1 = EPHIDGET_OK)
    (hchannel : (sdk.Phidget_getChannel phid).1 = EPHIDGET_OK) :
    (((sdk.Phidget_getHubPort phid).1 ≠ EPHIDGET_OK ∨ (sdk.Phidget_getHubPort phid).2 = -1) →
      (onAttachHandler sdk phid w).cout = w.cout ++
        ("channel " ++ toString (sdk.Phidget_getChannel phid).2
          ++ " on device " ++ toString (sdk.Phidget_getDeviceSerialNumber phid).2
          ++ " attached" ++ "\n")) ∧
    ((sdk.Phidget_getHubPort phid).1 = EPHIDGET_OK → (sdk.Phidget_getHubPort phid).2 ≠ -1 →
      (onAttachHandler sdk phid w).cout = w.cout ++
        ("channel " ++ toString (sdk.Phidget_getChannel phid).2
          ++ " on device " ++ toString (sdk.Phidget_getDeviceSerialNumber phid).2
          ++ " hub port " ++ toString (sdk.Phidget_getHubPort phid).2
          ++ " attached" ++ "\n")) ∧
    ("channel " ++ toString (sdk.Phidget_getChannel phid).2
          ++ " on device " ++ toString (sdk.Phidget_getDeviceSerialNumber phid).2
          ++ " attached" ++ "\n").toList.count '\n' = 1 ∧
    ("channel " ++ toString (sdk.Phidget_getChannel phid).2
          ++ " on device " ++ toString (sdk.Phidget_getDeviceSerialNumber phid).2
          ++ " hub port " ++ toString (sdk.Phidget_getHubPort phid).2
          ++ " attached" ++ "\n").toList.count '\n' = 1 := by
  refine ⟨?_, ?_, ?_, ?_⟩
  · intro h
    by_cases hp : (sdk.Phidget_getHubPort phid).1 = EPHIDGET_OK
    · have h2 : (sdk.Phidget_getHubPort phid).2 = -1 := by
        rcases h with h | h
        · exact absurd hp h
        · exact h
      simp [onAttachHandler, World.call, World.out, hserial, hchannel, hp, h2]
    · simp [onAttachHandler, World.call, World.out, World.err, hserial, hchannel, hp]
  · intro hp h2
    simp [onAttachHandler, World.call, World.out, hserial, hchannel, hp, h2]
  · simp only [count_newline_append, count_newline_int]
    decide
  · simp only [count_newline_append, count_newline_int]
    decide

/-- C6, amended, evaluated with hub port 3 and with the hub port absent. -/
theorem onAttachHandler_line_witness :
    (onAttachHandler mockOk 7 World.init).cout
      = "" ++ "channel 0 on device 1 hub port 3 attached\n" ∧
    (onAttachHandler mockNoHubPort 7 World.init).cout
      = "" ++ "channel 0 on device 1 attached\n" :=
  ⟨(onAttachHandler_line mockOk 7 World.init (by decide) (by decide)).2.1
      (by decide) (by decide),
   (onAttachHandler_line mockNoHubPort 7 World.init (by decide) (by decide)).1
      (Or.inl (by decide))⟩

/-- C9: when the serial accessor fails, the attach handler makes that one accessor call
and appends the one line "failed to get device serial number" to `std::cerr`; when the
serial is read and the channel accessor fails, it makes these two accessor calls and
appends the one line "failed to get channel number" to `std::cerr`. In both cases
`std::cout` is untouched, no further accessor is called, and the handler returns (its
result is a plain state, there is no failure to raise). -/
theorem onAttachHandler_accessor_failure (sdk : Sdk) (phid : Handle) (w : World) :
    ((sdk.Phidget_getDeviceSerialNumber phid).1 ≠ EPHIDGET_OK →
      onAttachHandler sdk phid w =
        { w with
          trace := w.trace ++ [Call.Phidget_getDeviceSerialNumber phid]
          cerr := w.cerr ++ "failed to get device serial number\n" }) ∧
    ((sdk.Phidget_getDeviceSerialNumber phid).1 = EPHIDGET_OK →
      (sdk.Phidget_getChannel phid).1 ≠ EPHIDGET_OK →
      onAttachHandler sdk phid w =
        { w with
          trace := w.trace ++ [Call.Phidget_getDeviceSerialNumber phid,
            Call.Phidget_getChannel phid]
          cerr := w.cerr ++ "failed to get channel number\n" }) := by
  refine ⟨?_, ?_⟩
  · intro hs
    simp [onAttachHandler, World.call, World.err, hs]
  · intro hs hc
    simp [onAttachHandler, World.call, World.err, hs, hc]

/-- C9, evaluated on a device whose channel accessor returns code 3. -/
theorem onAttachHandler_accessor_failure_witness :
    onAttachHandler mockChannelFails 7 World.init =
      { World.init with
        trace := World.init.trace ++ [Call.Phidget_getDeviceSerialNumber 7,
          Call.Phidget_getChannel 7]
        cerr := World.init.cerr ++ "failed to get channel number\n" } :=
  (onAttachHandler_accessor_failure mockChannelFails 7 World.init).2 (by decide) (by decide)

/-! ## Range printer: theorems -/

/-- Text accumulated by `String.intercalate` after a fixed leading text. -/
theorem intercalate_go_append (p acc sep : String) (l : List String) :
    String.intercalate.go (p ++ acc) sep l = p ++ String.intercalate.go acc sep l := by
  induction l generalizing acc with
  | nil => simp [String.intercalate.go]
  | cons a l ih =>
    simp only [String.intercalate.go]
    rw [← ih]
    simp [String.append_assoc]

/-- Up to `std::end` the loop writes the remaining elements, each after a separator,
and reads each of them once, in order. -/
theorem Range.loop_eq {α : Type} (render : α → String) (rest : List α) (st : String × List α) :
    Range.loop render [] rest st
      = some (String.intercalate.go st.1 ", " (rest.map render), st.2 ++ rest) := by
  induction rest generalizing st with
  | nil => simp [Range.loop, String.intercalate.go]
  | cons x rest ih =>
    simp only [Range.loop, List.map_cons, String.intercalate.go]
    rw [if_neg (by simp), ih]
    simp

/-- C10: for a non-empty sequence the printer applied to the `Range` over it returns,
appends to the stream exactly `[`, the renderings of the elements in order joined by
`", "` (so one separator fewer than elements, none leading or trailing) and `]`, and
reads exactly the elements of the sequence, each once, in order. For the empty range it
has no defined result: it dereferences `first` before any comparison with `last`. -/
theorem Range.write_nonempty {α : Type} (render : α → String) (xs : List α) (os : String) :
    (xs ≠ [] →
      Range.write render (make_range xs) os
        = some (os ++ "[" ++ ", ".intercalate (xs.map render) ++ "]", xs)) ∧
    Range.write render (make_range ([] : List α)) os = none := by
  refine ⟨?_, rfl⟩
  intro hne
  cases xs with
  | nil => exact absurd rfl hne
  | cons x rest =>
    simp only [Range.write, make_range, Range.loop_eq, List.map_cons, String.intercalate]
    rw [show os ++ "[" ++ render x = (os ++ "[") ++ render x from rfl, intercalate_go_append]
    simp

/-- C10, evaluated: the vector 0, 1, 2, 3, 4, 5 of `main` is written as
`[0, 1, 2, 3, 4, 5]` after the text already on the stream. -/
theorem Range.write_nonempty_witness :
    Range.write (fun i : Int => toString i) (make_range [0, 1, 2, 3, 4, 5]) "vec = "
      = some ("vec = [0, 1, 2, 3, 4, 5]", [0, 1, 2, 3, 4, 5]) :=
  (Range.write_nonempty (fun i : Int => toString i) [0, 1, 2, 3, 4, 5] "vec = ").1
    (by decide)

/-! ## Spatial-data callback: theorems -/

/-- C7: for every sample the spatial-data handler sets the precision of `std::cout` to
15 and appends to it exactly five newline-terminated lines, in this order: the
acceleration triple, the angular-rate triple, the magnetic-field triple (each with its
components at indices 0, 1, 2 separated by `", "`), the timestamp, and an empty line;
the appended text has exactly five line breaks, and `std::cerr` and the SDK trace are
untouched. Every number is rendered at 15 significant digits: the text written for a
finite non-zero value `±m·2^e` is a decimal numeral that denotes `±D·10^(X-14)` for a
`D` of exactly 15 digits, and that number is the value rounded to nearest (the error is
at most half a unit of the 15th digit, with `D` even on a tie), in exponent style
exactly when `X < -4` or `15 ≤ X`; a zero is written `0`,
an infinity `inf` and a NaN `nan`, each after `-` when its sign bit is set. For the
sample a=[1,2,3], w=[4,5,6], m=[7,8,9], t=12.5 the lines carry `1, 2, 3`, `4, 5, 6`,
`7, 8, 9` and `12.5`. -/
theorem onSpatialDataHandler_lines (acceleration angularRate magneticField : Nat → Double)
    (timestamp : Double) (w : World) :
    onSpatialDataHandler acceleration angularRate magneticField timestamp w =
      { w with
        precision := 15
        cout := w.cout ++
          (("Acceleration Changed: " ++ printDouble 15 (acceleration 0) ++ ", "
              ++ printDouble 15 (acceleration 1) ++ ", " ++ printDouble 15 (acceleration 2)
              ++ "\n")
          ++ ("Angular Rate Changed: " ++ printDouble 15 (angularRate 0) ++ ", "
              ++ printDouble 15 (angularRate 1) ++ ", " ++ printDouble 15 (angularRate 2)
              ++ "\n")
          ++ ("Magnetic Field Changed: " ++ printDouble 15 (magneticField 0) ++ ", "
              ++ printDouble 15 (magneticField 1) ++ ", " ++ printDouble 15 (magneticField 2)
              ++ "\n")
          ++ ("Timestamp: " ++ printDouble 15 timestamp ++ "\n")
          ++ "\n") } ∧
    (("Acceleration Changed: " ++ printDouble 15 (acceleration 0) ++ ", "
              ++ printDouble 15 (acceleration 1) ++ ", " ++ printDouble 15 (acceleration 2)
              ++ "\n")
          ++ ("Angular Rate Changed: " ++ printDouble 15 (angularRate 0) ++ ", "
              ++ printDouble 15 (angularRate 1) ++ ", " ++ printDouble 15 (angularRate 2)
              ++ "\n")
          ++ ("Magnetic Field Changed: " ++ printDouble 15 (magneticField 0) ++ ", "
              ++ printDouble 15 (magneticField 1) ++ ", " ++ printDouble 15 (magneticField 2)
              ++ "\n")
          ++ ("Timestamp: " ++ printDouble 15 timestamp ++ "\n")
          ++ "\n").toList.count '\n' = 5 ∧
    (onSpatialDataHandler acceleration angularRate magneticField timestamp w).cerr = w.cerr ∧
    (∀ (neg : Bool) (m : Nat) (e : Int), m ≠ 0 →
      ∃ (D : Nat) (X : Int), 10 ^ 14 ≤ D ∧ D < 10 ^ 15 ∧
        |(m : ℚ) * (2 : ℚ) ^ e - (D : ℚ) * (10 : ℚ) ^ (X - 14)| * 2 ≤ (10 : ℚ) ^ (X - 14) ∧
        (|(m : ℚ) * (2 : ℚ) ^ e - (D : ℚ) * (10 : ℚ) ^ (X - 14)| * 2 = (10 : ℚ) ^ (X - 14) →
          D % 2 = 0) ∧
        decimalValue (printDouble 15 (Double.finite neg m e)).toList
          = some ((if neg then -1 else 1) * ((D : ℚ) * (10 : ℚ) ^ (X - 14))) ∧
        ('e' ∈ (printDouble 15 (Double.finite neg m e)).toList ↔ (X < -4 ∨ 15 ≤ X))) ∧
    (∀ (neg : Bool) (e : Int),
      printDouble 15 (Double.finite neg 0 e) = if neg then "-0" else "0") ∧
    (∀ neg : Bool, printDouble 15 (Double.inf neg) = if neg then "-inf" else "inf") ∧
    (∀ neg : Bool, printDouble 15 (Double.nan neg) = if neg then "-nan" else "nan") ∧
    (onSpatialDataHandler
        (vec3 (Double.ofNat 1) (Double.ofNat 2) (Double.ofNat 3))
        (vec3 (Double.ofNat 4) (Double.ofNat 5) (Double.ofNat 6))
        (vec3 (Double.ofNat 7) (Double.ofNat 8) (Double.ofNat 9))
        (Double.finite false 25 (-1)) World.init).cout =
      "Acceleration Changed: 1, 2, 3\n" ++ "Angular Rate Changed: 4, 5, 6\n"
        ++ "Magnetic Field Changed: 7, 8, 9\n" ++ "Timestamp: 12.5\n" ++ "\n" := by
  refine ⟨?_, ?_, ?_, ?_, ?_, ?_, ?_, ?_⟩
  · simp only [onSpatialDataHandler, World.out, String.append_assoc]
  · simp only [count_newline_append, count_newline_double]
    decide
  · simp [onSpatialDataHandler, World.out]
  · intro neg m e hm
    obtain ⟨D, X, h1, h2, h3, h4, h5, h6⟩ := printDouble_denotes 15 m e neg hm (by norm_num)
    have hx : X - ((15 : Nat) : Int) + 1 = X - 14 := by omega
    rw [hx] at h3 h4 h5
    exact ⟨D, X, h1, h2, h3, h4, h5, h6⟩
  · intro neg e
    cases neg <;> rfl
  · intro neg
    rfl
  · intro neg
    rfl
  · decide

/-- C7, evaluated at the timestamp 12.5 = 25·2^-1 of the sample: its text denotes a
15-digit decimal within half a unit of the last digit of 12.5. -/
theorem onSpatialDataHandler_lines_witness :
    ∃ (D : Nat) (X : Int), 10 ^ 14 ≤ D ∧ D < 10 ^ 15 ∧
      |((25 : Nat) : ℚ) * (2 : ℚ) ^ (-1 : Int) - (D : ℚ) * (10 : ℚ) ^ (X - 14)| * 2
        ≤ (10 : ℚ) ^ (X - 14) ∧
      (|((25 : Nat) : ℚ) * (2 : ℚ) ^ (-1 : Int) - (D : ℚ) * (10 : ℚ) ^ (X - 14)| * 2
        = (10 : ℚ) ^ (X - 14) → D % 2 = 0) ∧
      decimalValue (printDouble 15 (Double.finite false 25 (-1))).toList
        = some ((if false then -1 else 1) * ((D : ℚ) * (10 : ℚ) ^ (X - 14))) ∧
      ('e' ∈ (printDouble 15 (Double.finite false 25 (-1))).toList ↔ (X < -4 ∨ 15 ≤ X)) :=
  (onSpatialDataHandler_lines
    (vec3 (Double.ofNat 1) (Double.ofNat 2) (Double.ofNat 3))
    (vec3 (Double.ofNat 4) (Double.ofNat 5) (Double.ofNat 6))
    (vec3 (Double.ofNat 7) (Double.ofNat 8) (Double.ofNat 9))
    (Double.finite false 25 (-1)) World.init).2.2.2.1 false 25 (-1) (by decide)

end Scratchpad
